import Mathlib

/-!
# V2V platooning service: framing codec and follow-link state machine

A shallow embedding of the two variants of `V2VService`:

* `src/v2v_service/v2v/v2v.cpp` (the basic variant, namespace `V2V`);
* `src/visualisation/visualisation/visualisation.cpp` (the control-plane
  variant, namespace `Vis`).

`getTime`, `extract` and `encode` are textually identical in both files and are
embedded once, in namespace `Codec`.

Conventions of the embedding.

* `std::string` is a list of characters (`Str`).
* `unsigned int` values are natural numbers below `2 ^ 32`; the narrowing to
  `int16_t` is the explicit function `toInt16`.
* A step that would throw out of a `noexcept` callback or dereference an unset
  `shared_ptr` evaluates to `none`.
* Everything the service emits (datagrams, bus messages, started threads) is
  recorded, in program order, in a list of effects.
-/

/-- A `std::string`, as the list of its characters. -/
abbrev Str := List Char

namespace Codec

/-! ## Formatted hexadecimal output (`std::hex`, `std::setfill`, `std::setw`) -/

/-- The lower-case hexadecimal digit character of a value below 16. -/
def hexChar (d : Nat) : Char :=
  Char.ofNat (if d < 10 then 48 + d else 87 + d)

/-- Digits of `n` in base 16, most significant first, pushed in front of `acc`;
`fuel` bounds the number of digits produced. -/
def toHexAux : Nat → Nat → Str → Str
  | 0, _, acc => acc
  | fuel + 1, n, acc =>
    if n / 16 = 0 then hexChar (n % 16) :: acc
    else toHexAux fuel (n / 16) (hexChar (n % 16) :: acc)

/-- What `stream << std::hex << n` prints for an unsigned `n`: the shortest
hexadecimal numeral of `n` (a single `0` for zero). -/
def toHex (n : Nat) : Str := toHexAux (n + 1) n []

/-- Effect of `std::setfill('0') << std::setw(w)` on the next item: it is
padded on the left to at least `w` characters and never truncated. -/
def padLeft (w : Nat) (s : Str) : Str :=
  List.replicate (w - s.length) '0' ++ s

/-! ## Formatted hexadecimal input (`stream >> std::hex >> unsigned int`) -/

/-- Largest value of `unsigned int`. -/
def UINT_MAX : Nat := 4294967295

/-- Whitespace of the classic locale, skipped before a formatted extraction. -/
def isSpace (c : Char) : Bool :=
  c.toNat = 32 || (9 ≤ c.toNat && c.toNat ≤ 13)

/-- Value of a hexadecimal digit character, either case. -/
def hexVal (c : Char) : Option Nat :=
  if 48 ≤ c.toNat ∧ c.toNat ≤ 57 then some (c.toNat - 48)
  else if 97 ≤ c.toNat ∧ c.toNat ≤ 102 then some (c.toNat - 87)
  else if 65 ≤ c.toNat ∧ c.toNat ≤ 70 then some (c.toNat - 55)
  else none

/-- Accumulates the longest prefix of hexadecimal digits of the input onto
`acc` and stops at the first other character. -/
def readHex : Str → Nat → Nat
  | [], acc => acc
  | c :: r, acc =>
    match hexVal c with
    | some d => readHex r (16 * acc + d)
    | none => acc

/-- An optional `0x` or `0X` in front of the digits is consumed. -/
def stripHexPrefix : Str → Str
  | '0' :: 'x' :: r => r
  | '0' :: 'X' :: r => r
  | s => s

/-- The value an `unsigned int` variable holds after
`stream >> std::hex >> variable` on a fresh stream over `field`.

* Leading whitespace is skipped; when nothing is left the extraction fails
  before the variable is written, which keeps its previous value `prev`.
* An optional sign and an optional `0x` are consumed, then the longest run of
  hexadecimal digits. No digit at all stores `0`.
* A magnitude above `UINT_MAX` stores `UINT_MAX`; otherwise a leading minus
  sign stores the magnitude negated modulo `2 ^ 32`. -/
def hexExtract (prev : Nat) (field : Str) : Nat :=
  match field.dropWhile isSpace with
  | [] => prev % 2 ^ 32
  | c :: r =>
    let body := if c = '-' ∨ c = '+' then r else c :: r
    let v := readHex (stripHexPrefix body) 0
    if v > UINT_MAX then UINT_MAX
    else if c = '-' then (2 ^ 32 - v) % 2 ^ 32
    else v

/-- Conversion of an `unsigned int` to `int16_t`: the low 16 bits, read as a
two's complement number. -/
def toInt16 (u : Nat) : Int :=
  if u % 65536 < 32768 then ((u % 65536 : Nat) : Int)
  else ((u % 65536 : Nat) : Int) - 65536

/-- The call `std::string::substr(pos, n)`: the at most `n` characters from position
`pos` on; `none` stands for the `std::out_of_range` thrown when `pos` lies
beyond the end of the string. -/
def substr (s : Str) (pos n : Nat) : Option Str :=
  if pos ≤ s.length then some ((s.drop pos).take n) else none

/-! ## The three functions shared by both variants -/

/-- The method `V2VService::getTime` (v2v.cpp 216-220, visualisation.cpp 403-407), as a
function of the reading `(tv_sec, tv_usec)` of `gettimeofday`:
`(uint32_t) now.tv_usec / 1000`. -/
def getTime (_tv_sec tv_usec : Nat) : Nat :=
  (tv_usec % 2 ^ 32) / 1000

/-- The method `V2VService::extract` (v2v.cpp 228-239, visualisation.cpp 415-426).
`id0` and `len0` are the values the uninitialised locals `id` and `len` hold
before the two stream extractions. The first component of the result is the
`int16_t` of the pair, the second its string. -/
def extract (id0 len0 : Nat) (data : Str) : Option (Int × Str) :=
  if data.length < 10 then some (-1, [])
  else
    match substr data 0 4, substr data 4 10, substr data 10 (data.length - 10) with
    | some ssId, some ssLen, some payload =>
      let id := hexExtract id0 ssId
      let len := hexExtract len0 ssLen
      some (toInt16 (if data.length - 10 = len then id else UINT_MAX), payload)
    | _, _, _ => none

/-- The method `V2VService::encode` (v2v.cpp 248-258, visualisation.cpp 435-445) for a
message whose `ID()` is `ID` and whose serialisation by the external
`cluon::ToProtoVisitor` is `encodedData`. -/
def encode (ID : Nat) (encodedData : Str) : Str :=
  padLeft 4 (toHex ID) ++ (padLeft 6 (toHex encodedData.length) ++ encodedData)

end Codec

/-! ## Messages, channels and effects -/

/-- Sensor readings and telemetry fields (`float` or `uint8_t` in the source).
The service only stores and copies them and writes the literal `0`; no
arithmetic is performed on them. -/
abbrev Reading := Int

/-- A reading of `gettimeofday`. -/
structure Timeval where
  tv_sec : Nat
  tv_usec : Nat
deriving DecidableEq

/-- The vehicle-to-vehicle messages that travel in frames or on the broadcast
channel, with the fields the service sets. -/
inductive Msg where
  | announcePresence (vehicleIp groupId : Str)
  | followRequest
  | followResponse
  | stopFollow
  | followerStatus (timestamp : Nat) (speed steeringAngle distanceFront distanceTraveled : Reading)
  | leaderStatus (timestamp : Nat) (speed steeringAngle distanceTraveled : Reading)
deriving DecidableEq

/-- Modelled from the spec: the header constants `ANNOUNCE_PRESENCE` to
`FOLLOWER_STATUS` and the generated `ID()` of each message class are not part
of the sources; the spec fixes the codes as AnnouncePresence=1001,
FollowRequest=1002, FollowResponse=1003, StopFollow=1004, LeaderStatus=2001,
FollowerStatus=3001. -/
def Msg.ID : Msg → Nat
  | .announcePresence _ _ => 1001
  | .followRequest => 1002
  | .followResponse => 1003
  | .stopFollow => 1004
  | .leaderStatus _ _ _ _ => 2001
  | .followerStatus _ _ _ _ _ => 3001

/-- Modelled from the spec: case label `FOLLOW_REQUEST` (FollowRequest=1002). -/
def FOLLOW_REQUEST : Int := 1002

/-- Modelled from the spec: case label `FOLLOW_RESPONSE` (FollowResponse=1003). -/
def FOLLOW_RESPONSE : Int := 1003

/-- Modelled from the spec: case label `STOP_FOLLOW` (StopFollow=1004). -/
def STOP_FOLLOW : Int := 1004

/-- Modelled from the spec: case label `LEADER_STATUS` (LeaderStatus=2001). -/
def LEADER_STATUS : Int := 2001

/-- Modelled from the spec: case label `FOLLOWER_STATUS` (FollowerStatus=3001). -/
def FOLLOWER_STATUS : Int := 3001

/-- Messages carried by the `cluon::OD4Session` channels. An envelope is
represented by the message it holds; `other` is an envelope whose `dataType()`
matches no case label of the receiving handler. -/
inductive OD4Msg where
  | announcePresence (vehicleIp groupId : Str)
  | internalAnnouncePresence
  | internalFollowRequest (groupid : Str)
  | internalFollowResponse (groupid : Str) (status : Nat)
  | internalStopFollow (groupid : Str)
  | internalStopFollowResponse (groupid : Str)
  | internalGetAllGroupsRequest
  | internalEmergencyBrake
  | pedalPositionReading (percent : Reading)
  | groundSteeringReading (steeringAngle : Reading)
  | other (dataType : Int)
deriving DecidableEq

/-- The four `OD4Session` members of the service. -/
inductive Channel where
  | broadcast
  | internalBroadCast
  | motorBroadcast
  | visualisation
deriving DecidableEq

/-- The two sender threads of the control-plane variant. -/
inductive SenderThread where
  | sendFollowerStatuses
  | sendLeaderStatuses
deriving DecidableEq

/-- One observable action of the service. -/
inductive Effect where
  /-- The call `send(frame)` on a `cluon::UDPSender` bound to `(dest, DEFAULT_PORT)`. -/
  | udp (dest frame : Str)
  /-- The call `send(m)` on one of the `OD4Session` members. -/
  | od4 (ch : Channel) (m : OD4Msg)
  /-- The call `pthread_create` for one of the sender threads. -/
  | thread (t : SenderThread)
deriving DecidableEq

/-- Outcome of a handler or method: the new state and the effects in program
order, or `none` when the step throws or dereferences an unset handle. -/
abbrev Outcome (σ : Type) := Option (σ × List Effect)

/-- Sequencing of two steps; the effects are concatenated. -/
def Outcome.andThen {σ : Type} (r : Outcome σ) (f : σ → Outcome σ) : Outcome σ :=
  match r with
  | none => none
  | some (s, e) =>
    match f s with
    | none => none
    | some (t, e2) => some (t, e ++ e2)

/-- The call `handle->send(frame)` through a `shared_ptr<cluon::UDPSender>`:
`none` is the dereference of an unset handle. -/
def sendVia (handle : Option Str) (frame : Str) : Option (List Effect) :=
  match handle with
  | none => none
  | some dest => some [Effect.udp dest frame]

/-- The constant `std::string::npos`. -/
def npos : Nat := 2 ^ 64 - 1

/-- The call `std::string::find` for a one-character pattern: the index of the first
occurrence, or `npos`. -/
def find (s : Str) (c : Char) : Nat :=
  if c ∈ s then s.indexOf c else npos

/-- The `senderIp` of the incoming handler:
`sender.substr(0, sender.find(":"))`. -/
def senderIpOf (sender : Str) : Option Str :=
  Codec.substr sender 0 (find sender ':')

/-! ## `std::map<std::string, std::string>` -/

/-- A map as the list of its entries; keys are kept distinct by the three
operations below. The iteration order of the map is not used by the service. -/
abbrev StrMap := List (Str × Str)

/-- The call `m.insert(std::make_pair(k, v))`: adds the entry unless the key is present. -/
def StrMap.insert (m : StrMap) (k v : Str) : StrMap :=
  match m.lookup k with
  | some _ => m
  | none => m ++ [(k, v)]

/-- The expression `m[k]` read as a value: the stored value, or a freshly inserted empty
string when the key is absent; the second component is the map afterwards. -/
def StrMap.index (m : StrMap) (k : Str) : Str × StrMap :=
  match m.lookup k with
  | some v => (v, m)
  | none => ([], m ++ [(k, [])])

/-- The assignment `m[k] = v`. -/
def StrMap.assign (m : StrMap) (k v : Str) : StrMap :=
  match m.lookup k with
  | some _ => m.map (fun e => if e.1 = k then (k, v) else e)
  | none => m ++ [(k, v)]

/-! ## The control-plane variant (`visualisation.cpp`) -/

namespace Vis

open Codec

/-- The type `struct CarStatus`: the last readings of the motor channel. -/
structure CarStatus where
  speed : Reading
  steeringAngle : Reading
  distanceFront : Reading
  distanceTraveled : Reading
deriving DecidableEq

/-- The data members of `V2VService` that the methods read or write. A
`UDPSender` handle is represented by the address it is bound to, `none` being
the empty `shared_ptr`; the two time stamps are `none` until first written. -/
structure V2VService where
  followerIp : Str
  leaderIp : Str
  myIp : Str
  myGroupId : Str
  currentCarStatus : CarStatus
  mapOfIps : StrMap
  mapOfIds : StrMap
  toLeader : Option Str
  toFollower : Option Str
  lastLeaderUpdate : Option Nat
  lastFollowerUpdate : Option Nat
deriving DecidableEq

/-- The state left by the constructor (lines 8-16). -/
def init (ip groupId : Str) : V2VService :=
  { followerIp := [], leaderIp := [], myIp := ip, myGroupId := groupId,
    currentCarStatus := ⟨0, 0, 0, 0⟩, mapOfIps := [], mapOfIds := [],
    toLeader := none, toFollower := none,
    lastLeaderUpdate := none, lastFollowerUpdate := none }

section
variable (ser : Msg → Str)

/-- The method `V2VService::announcePresence` (lines 234-239). -/
def announcePresence (s : V2VService) : Outcome V2VService :=
  some (s, [Effect.od4 Channel.broadcast (OD4Msg.announcePresence s.myIp s.myGroupId)])

/-- The method `V2VService::followRequest` (lines 247-253). -/
def followRequest (s : V2VService) (vehicleIp : Str) : Outcome V2VService :=
  if s.leaderIp ≠ [] then some (s, [])
  else
    let s1 := { s with leaderIp := vehicleIp, toLeader := some vehicleIp }
    match sendVia s1.toLeader (encode Msg.followRequest.ID (ser Msg.followRequest)) with
    | none => none
    | some e => some (s1, e)

/-- The method `V2VService::followResponse` (lines 259-263). -/
def followResponse (s : V2VService) : Outcome V2VService :=
  if s.followerIp = [] then some (s, [])
  else
    match sendVia s.toFollower (encode Msg.followResponse.ID (ser Msg.followResponse)) with
    | none => none
    | some e => some (s, e)

/-- First `if` of `V2VService::stopFollow` (lines 273-278). -/
def stopFollowLeader (s : V2VService) : Outcome V2VService :=
  if s.leaderIp ≠ [] then
    match sendVia s.toLeader (encode Msg.stopFollow.ID (ser Msg.stopFollow)) with
    | none => none
    | some e => some ({ s with leaderIp := [], toLeader := none }, e)
  else some (s, [])

/-- Second `if` of `V2VService::stopFollow` (lines 279-284). -/
def stopFollowFollower (s : V2VService) : Outcome V2VService :=
  if s.followerIp ≠ [] then
    match sendVia s.toFollower (encode Msg.stopFollow.ID (ser Msg.stopFollow)) with
    | none => none
    | some e => some ({ s with followerIp := [], toFollower := none }, e)
  else some (s, [])

/-- The method `V2VService::stopFollow` (lines 271-285): two independent `if`s. -/
def stopFollow (s : V2VService) : Outcome V2VService :=
  Outcome.andThen (stopFollowLeader ser s) (stopFollowFollower ser)

/-- The method `V2VService::startReportingToLeader` (lines 302-314). -/
def startReportingToLeader (s : V2VService) (now : Timeval) : Outcome V2VService :=
  some ({ s with lastLeaderUpdate := some (getTime now.tv_sec now.tv_usec) },
        [Effect.thread SenderThread.sendFollowerStatuses])

/-- The method `V2VService::followerStatus` (lines 324-328); the message is sent as
default-constructed, all of its fields zero. -/
def followerStatus (s : V2VService) : Outcome V2VService :=
  if s.leaderIp = [] then some (s, [])
  else
    match sendVia s.toLeader
        (encode (Msg.followerStatus 0 0 0 0 0).ID (ser (Msg.followerStatus 0 0 0 0 0))) with
    | none => none
    | some e => some (s, e)

/-- The method `V2VService::startReportingToFollower` (lines 352-364). -/
def startReportingToFollower (s : V2VService) (now : Timeval) : Outcome V2VService :=
  some ({ s with lastFollowerUpdate := some (getTime now.tv_sec now.tv_usec) },
        [Effect.thread SenderThread.sendLeaderStatuses])

/-- The method `V2VService::leaderStatus` (lines 373-381). -/
def leaderStatus (s : V2VService) (speed steeringAngle distanceTraveled : Reading)
    (now : Timeval) : Outcome V2VService :=
  if s.followerIp = [] then some (s, [])
  else
    let m := Msg.leaderStatus (getTime now.tv_sec now.tv_usec) speed steeringAngle distanceTraveled
    match sendVia s.toFollower (encode m.ID (ser m)) with
    | none => none
    | some e => some (s, e)

/-- One evaluation of the loop condition of `sendFollowerStatuses`
(lines 293-297), followed by the body when the condition holds. -/
def sendFollowerStatusesIter (s : V2VService) : Outcome V2VService :=
  if s.leaderIp ≠ [] then followerStatus ser s else some (s, [])

/-- One evaluation of the loop condition of `sendLeaderStatuses`
(lines 336-347), followed by the body when the condition holds. -/
def sendLeaderStatusesIter (s : V2VService) (now : Timeval) : Outcome V2VService :=
  if s.followerIp ≠ [] then
    leaderStatus ser s s.currentCarStatus.speed s.currentCarStatus.steeringAngle
      s.currentCarStatus.distanceTraveled now
  else some (s, [])

/-- The method `V2VService::setCurrentCarStatus` (lines 389-395). -/
def setCurrentCarStatus (s : V2VService) (newCarStatus : CarStatus) : V2VService :=
  { s with currentCarStatus := newCarStatus }

/-- The callback of the `broadcast` session (lines 35-57). -/
def broadcastHandler (s : V2VService) (envelope : OD4Msg) : Outcome V2VService :=
  match envelope with
  | OD4Msg.announcePresence vehicleIp groupId =>
    let s1 :=
      if groupId ≠ s.myGroupId then
        { s with mapOfIps := s.mapOfIps.insert groupId vehicleIp,
                 mapOfIds := s.mapOfIds.assign vehicleIp groupId }
      else s
    some (s1, [Effect.od4 Channel.visualisation envelope])
  | _ => some (s, [])

/-- The callback of the `internalBroadCast` session (lines 63-123). -/
def internalBroadCastHandler (s : V2VService) (envelope : OD4Msg) : Outcome V2VService :=
  match envelope with
  | OD4Msg.internalAnnouncePresence =>
    Outcome.andThen (announcePresence s)
      (fun t => some (t, [Effect.od4 Channel.visualisation envelope]))
  | OD4Msg.internalFollowRequest groupid =>
    Outcome.andThen (some (s, [Effect.od4 Channel.visualisation envelope]))
      (fun t =>
        if t.leaderIp = [] then
          followRequest ser { t with mapOfIps := (t.mapOfIps.index groupid).2 }
            (t.mapOfIps.index groupid).1
        else some (t, []))
  | OD4Msg.internalStopFollow groupid =>
    Outcome.andThen
      (Outcome.andThen (some (s, [Effect.od4 Channel.visualisation envelope])) (stopFollow ser))
      (fun t => some (t, [Effect.od4 Channel.internalBroadCast
                            (OD4Msg.internalStopFollowResponse groupid)]))
  | OD4Msg.internalGetAllGroupsRequest =>
    some (s, [Effect.od4 Channel.visualisation envelope])
  | OD4Msg.internalEmergencyBrake =>
    Outcome.andThen
      (Outcome.andThen (some (s, [Effect.od4 Channel.visualisation envelope])) (stopFollow ser))
      (fun t => some (t, [Effect.od4 Channel.motorBroadcast (OD4Msg.pedalPositionReading 0),
                          Effect.od4 Channel.motorBroadcast (OD4Msg.groundSteeringReading 0)]))
  | _ => some (s, [])

/-- The callback of the `motorBroadcast` session (lines 128-148). -/
def motorBroadcastHandler (s : V2VService) (envelope : OD4Msg) : Outcome V2VService :=
  match envelope with
  | OD4Msg.pedalPositionReading percent =>
    some ({ s with currentCarStatus := { s.currentCarStatus with speed := percent } },
          [Effect.od4 Channel.visualisation envelope])
  | OD4Msg.groundSteeringReading steeringAngle =>
    some ({ s with currentCarStatus :=
                     { s.currentCarStatus with steeringAngle := steeringAngle } },
          [Effect.od4 Channel.visualisation envelope])
  | _ => some (s, [])

/-- The callback of the `incoming` receiver (lines 158-227) for one datagram
`data` from `sender`. `id0`, `len0` are the indeterminate initial values of
the locals of `extract`, `now` the clock read by the branches that start a
thread. The result of `decode` is only printed and is not represented. -/
def incomingHandler (s : V2VService) (data sender : Str) (id0 len0 : Nat)
    (now : Timeval) : Outcome V2VService :=
  match extract id0 len0 data, senderIpOf sender with
  | some msg, some senderIp =>
    if msg.1 = FOLLOW_REQUEST then
      if s.followerIp = [] then
        Outcome.andThen
          (followResponse ser { s with followerIp := senderIp, toFollower := some senderIp })
          (fun t => startReportingToFollower t now)
      else some (s, [])
    else if msg.1 = FOLLOW_RESPONSE then
      Outcome.andThen (startReportingToLeader s now)
        (fun t => some ({ t with mapOfIds := (t.mapOfIds.index senderIp).2 },
                        [Effect.od4 Channel.internalBroadCast
                           (OD4Msg.internalFollowResponse (t.mapOfIds.index senderIp).1 1)]))
    else if msg.1 = STOP_FOLLOW then
      if senderIp = s.followerIp then
        some ({ s with followerIp := [], toFollower := none }, [])
      else if senderIp = s.leaderIp then
        some ({ s with leaderIp := [], toLeader := none }, [])
      else some (s, [])
    else if msg.1 = FOLLOWER_STATUS then some (s, [])
    else if msg.1 = LEADER_STATUS then some (s, [])
    else some (s, [])
  | _, _ => none

/-- Everything that can happen to the service, taken one at a time: a message
delivered to one of the four callbacks, a call of a public method, or one
iteration of a sender thread. -/
inductive Event where
  | broadcast (envelope : OD4Msg)
  | internalBroadCast (envelope : OD4Msg)
  | motorBroadcast (envelope : OD4Msg)
  | incoming (data sender : Str) (id0 len0 : Nat) (now : Timeval)
  | announcePresence
  | followRequest (vehicleIp : Str)
  | followResponse
  | stopFollow
  | followerStatus
  | leaderStatus (speed steeringAngle distanceTraveled : Reading) (now : Timeval)
  | setCurrentCarStatus (newCarStatus : CarStatus)
  | sendFollowerStatusesIter
  | sendLeaderStatusesIter (now : Timeval)
deriving DecidableEq

/-- The step of the service on one event. -/
def step (s : V2VService) : Event → Outcome V2VService
  | Event.broadcast envelope => broadcastHandler s envelope
  | Event.internalBroadCast envelope => internalBroadCastHandler ser s envelope
  | Event.motorBroadcast envelope => motorBroadcastHandler s envelope
  | Event.incoming data sender id0 len0 now => incomingHandler ser s data sender id0 len0 now
  | Event.announcePresence => announcePresence s
  | Event.followRequest vehicleIp => followRequest ser s vehicleIp
  | Event.followResponse => followResponse ser s
  | Event.stopFollow => stopFollow ser s
  | Event.followerStatus => followerStatus ser s
  | Event.leaderStatus speed steeringAngle distanceTraveled now =>
    leaderStatus ser s speed steeringAngle distanceTraveled now
  | Event.setCurrentCarStatus newCarStatus => some (setCurrentCarStatus s newCarStatus, [])
  | Event.sendFollowerStatusesIter => sendFollowerStatusesIter ser s
  | Event.sendLeaderStatusesIter now => sendLeaderStatusesIter ser s now

/-- The service run on a sequence of events, one after the other. -/
def run (s : V2VService) : List Event → Outcome V2VService
  | [] => some (s, [])
  | ev :: rest => Outcome.andThen (step ser s ev) (fun t => run t rest)

end

/-- The states the service can be in: those a sequence of events leads to from
the state left by the constructor. -/
def Reachable (ser : Msg → Str) (s : V2VService) : Prop :=
  ∃ (ip groupId : Str) (evs : List Event) (out : List Effect),
    run ser (init ip groupId) evs = some (s, out)

/-- The channel-handle invariant: a non-empty peer address has its sender
handle set and bound to that address. -/
def HandlesOk (s : V2VService) : Prop :=
  (s.leaderIp ≠ [] → s.toLeader = some s.leaderIp) ∧
  (s.followerIp ≠ [] → s.toFollower = some s.followerIp)

instance (s : V2VService) : Decidable (HandlesOk s) := by
  unfold HandlesOk; infer_instance

end Vis

/-! ## The basic variant (`v2v.cpp`) -/

namespace V2V

open Codec

/-- The data members of `V2VService` in the basic variant; `announcedIps` is
the `std::set` of announced addresses, kept as a list without repetition. -/
structure V2VService where
  followerIp : Str
  leaderIp : Str
  announcedIps : List Str
  toLeader : Option Str
  toFollower : Option Str
deriving DecidableEq

/-- The state left by the constructor (lines 8-10). -/
def init : V2VService :=
  { followerIp := [], leaderIp := [], announcedIps := [],
    toLeader := none, toFollower := none }

section
variable (ser : Msg → Str)

/-- The method `V2VService::announcePresence` (lines 114-120); `CAR_IP` and `GROUP_ID`
are constants of the missing header and are taken as parameters. -/
def announcePresence (CAR_IP GROUP_ID : Str) (s : V2VService) : Outcome V2VService :=
  if s.followerIp ≠ [] then some (s, [])
  else some (s, [Effect.od4 Channel.broadcast (OD4Msg.announcePresence CAR_IP GROUP_ID)])

/-- The method `V2VService::followRequest` (lines 128-134). -/
def followRequest (s : V2VService) (vehicleIp : Str) : Outcome V2VService :=
  if s.leaderIp ≠ [] then some (s, [])
  else
    let s1 := { s with leaderIp := vehicleIp, toLeader := some vehicleIp }
    match sendVia s1.toLeader (encode Msg.followRequest.ID (ser Msg.followRequest)) with
    | none => none
    | some e => some (s1, e)

/-- The method `V2VService::followResponse` (lines 140-144). -/
def followResponse (s : V2VService) : Outcome V2VService :=
  if s.followerIp = [] then some (s, [])
  else
    match sendVia s.toFollower (encode Msg.followResponse.ID (ser Msg.followResponse)) with
    | none => none
    | some e => some (s, e)

/-- The method `V2VService::stopFollow` (lines 152-163): an `if` / `else if`. -/
def stopFollow (s : V2VService) : Outcome V2VService :=
  if s.leaderIp ≠ [] then
    match sendVia s.toLeader (encode Msg.stopFollow.ID (ser Msg.stopFollow)) with
    | none => none
    | some e => some ({ s with leaderIp := [], toLeader := none }, e)
  else if s.followerIp ≠ [] then
    match sendVia s.toFollower (encode Msg.stopFollow.ID (ser Msg.stopFollow)) with
    | none => none
    | some e => some ({ s with followerIp := [], toFollower := none }, e)
  else some (s, [])

/-- The method `V2VService::followerStatus` (lines 173-183). -/
def followerStatus (s : V2VService) (speed steeringAngle distanceFront distanceTraveled : Reading)
    (now : Timeval) : Outcome V2VService :=
  if s.leaderIp = [] then some (s, [])
  else
    let m := Msg.followerStatus (getTime now.tv_sec now.tv_usec) speed steeringAngle
      distanceFront distanceTraveled
    match sendVia s.toLeader (encode m.ID (ser m)) with
    | none => none
    | some e => some (s, e)

/-- The method `V2VService::leaderStatus` (lines 192-200). -/
def leaderStatus (s : V2VService) (speed steeringAngle distanceTraveled : Reading)
    (now : Timeval) : Outcome V2VService :=
  if s.followerIp = [] then some (s, [])
  else
    let m := Msg.leaderStatus (getTime now.tv_sec now.tv_usec) speed steeringAngle distanceTraveled
    match sendVia s.toFollower (encode m.ID (ser m)) with
    | none => none
    | some e => some (s, e)

/-- The callback of the `broadcast` session (lines 17-32). -/
def broadcastHandler (s : V2VService) (envelope : OD4Msg) : Outcome V2VService :=
  match envelope with
  | OD4Msg.announcePresence vehicleIp _ =>
    some ({ s with announcedIps :=
                     if vehicleIp ∈ s.announcedIps then s.announcedIps
                     else s.announcedIps ++ [vehicleIp] }, [])
  | _ => some (s, [])

/-- The callback of the `incoming` receiver (lines 41-107) for one datagram
`data` from `sender`; `id0`, `len0` are the indeterminate initial values of
the locals of `extract`. The result of `decode` is only printed and is not
represented. -/
def incomingHandler (s : V2VService) (data sender : Str) (id0 len0 : Nat) :
    Outcome V2VService :=
  match extract id0 len0 data, senderIpOf sender with
  | some msg, some senderIp =>
    if msg.1 = FOLLOW_REQUEST then
      if s.followerIp = [] then
        followResponse ser { s with followerIp := senderIp, toFollower := some senderIp }
      else some (s, [])
    else if msg.1 = FOLLOW_RESPONSE then some (s, [])
    else if msg.1 = STOP_FOLLOW then
      if senderIp = s.followerIp then
        some ({ s with followerIp := [], toFollower := none }, [])
      else if senderIp = s.leaderIp then
        some ({ s with leaderIp := [], toLeader := none }, [])
      else some (s, [])
    else if msg.1 = FOLLOWER_STATUS then some (s, [])
    else if msg.1 = LEADER_STATUS then some (s, [])
    else some (s, [])
  | _, _ => none

/-- Everything that can happen to the service, taken one at a time: a message
delivered to one of the two callbacks or a call of a public method. -/
inductive Event where
  | broadcast (envelope : OD4Msg)
  | incoming (data sender : Str) (id0 len0 : Nat)
  | announcePresence (CAR_IP GROUP_ID : Str)
  | followRequest (vehicleIp : Str)
  | followResponse
  | stopFollow
  | followerStatus (speed steeringAngle distanceFront distanceTraveled : Reading) (now : Timeval)
  | leaderStatus (speed steeringAngle distanceTraveled : Reading) (now : Timeval)
deriving DecidableEq

/-- The step of the service on one event. -/
def step (s : V2VService) : Event → Outcome V2VService
  | Event.broadcast envelope => broadcastHandler s envelope
  | Event.incoming data sender id0 len0 => incomingHandler ser s data sender id0 len0
  | Event.announcePresence CAR_IP GROUP_ID => announcePresence CAR_IP GROUP_ID s
  | Event.followRequest vehicleIp => followRequest ser s vehicleIp
  | Event.followResponse => followResponse ser s
  | Event.stopFollow => stopFollow ser s
  | Event.followerStatus speed steeringAngle distanceFront distanceTraveled now =>
    followerStatus ser s speed steeringAngle distanceFront distanceTraveled now
  | Event.leaderStatus speed steeringAngle distanceTraveled now =>
    leaderStatus ser s speed steeringAngle distanceTraveled now

/-- The service run on a sequence of events, one after the other. -/
def run (s : V2VService) : List Event → Outcome V2VService
  | [] => some (s, [])
  | ev :: rest => Outcome.andThen (step ser s ev) (fun t => run t rest)

end

/-- The states the service can be in: those a sequence of events leads to from
the state left by the constructor. -/
def Reachable (ser : Msg → Str) (s : V2VService) : Prop :=
  ∃ (evs : List Event) (out : List Effect), run ser init evs = some (s, out)

/-- The channel-handle invariant: a non-empty peer address has its sender
handle set and bound to that address. -/
def HandlesOk (s : V2VService) : Prop :=
  (s.leaderIp ≠ [] → s.toLeader = some s.leaderIp) ∧
  (s.followerIp ≠ [] → s.toFollower = some s.followerIp)

instance (s : V2VService) : Decidable (HandlesOk s) := by
  unfold HandlesOk; infer_instance

end V2V

/-! ## Definitions used to state the properties -/

namespace Codec

/-- The `w`-digit, zero-padded, big-endian hexadecimal numeral of `n`, as the
wire format describes a header field: the digit at position `i` from the left
is the hexadecimal digit of weight `16 ^ (w - 1 - i)`. -/
def zeroPaddedHex (w n : Nat) : Str :=
  (List.range w).map (fun i => hexChar (n / 16 ^ (w - 1 - i) % 16))

end Codec

/-- The events of the at-most-one-per-role property in the control-plane
variant: a call `followRequest(p)` or a datagram that `extract` reads as a
FollowRequest. -/
def Vis.IsFollowEvent : Vis.Event → Prop
  | Vis.Event.followRequest _ => True
  | Vis.Event.incoming data _ id0 len0 _ =>
    (Codec.extract id0 len0 data).map Prod.fst = some FOLLOW_REQUEST
  | _ => False

/-- The events of the at-most-one-per-role property in the basic variant: a
call `followRequest(p)` or a datagram that `extract` reads as a FollowRequest. -/
def V2V.IsFollowEvent : V2V.Event → Prop
  | V2V.Event.followRequest _ => True
  | V2V.Event.incoming data _ id0 len0 =>
    (Codec.extract id0 len0 data).map Prod.fst = some FOLLOW_REQUEST
  | _ => False

/-- A serialiser that maps every message to the empty payload, used for
concrete evaluations (the serialisation of a message without fields). -/
def emptySer : Msg → Str := fun _ => []

instance (ev : Vis.Event) : Decidable (Vis.IsFollowEvent ev) := by
  cases ev <;> unfold Vis.IsFollowEvent <;> infer_instance

instance (ev : V2V.Event) : Decidable (V2V.IsFollowEvent ev) := by
  cases ev <;> unfold V2V.IsFollowEvent <;> infer_instance

/-- An inbound datagram that `extract` reads as a FollowRequest, in the
control-plane variant. -/
def Vis.IsInboundFollowRequest : Vis.Event → Prop
  | Vis.Event.incoming data _ id0 len0 _ =>
    (Codec.extract id0 len0 data).map Prod.fst = some FOLLOW_REQUEST
  | _ => False

instance (ev : Vis.Event) : Decidable (Vis.IsInboundFollowRequest ev) := by
  cases ev <;> unfold Vis.IsInboundFollowRequest <;> infer_instance

/-- The number of sender threads of each kind counted as live: a started thread
is live until the link of its role is absent, that is `sendFollowerStatuses`
while `leaderIp` is non-empty and `sendLeaderStatuses` while `followerIp` is
non-empty. -/
structure Vis.LiveTasks where
  followerTasks : Nat
  leaderTasks : Nat
deriving DecidableEq

/-- The live threads after a step that ended in state `t` with effects `out`:
every `pthread_create` of the step adds a thread of its kind, and the threads
of a role whose link is absent in `t` are gone. -/
def Vis.liveAfter (t : Vis.V2VService) (out : List Effect) (l : Vis.LiveTasks) :
    Vis.LiveTasks :=
  { followerTasks :=
      if t.leaderIp = [] then 0
      else l.followerTasks + out.count (Effect.thread SenderThread.sendFollowerStatuses),
    leaderTasks :=
      if t.followerIp = [] then 0
      else l.leaderTasks + out.count (Effect.thread SenderThread.sendLeaderStatuses) }

/-- The service run on a sequence of events together with the count of live
sender threads. -/
def Vis.runLive (ser : Msg → Str) :
    Vis.V2VService → Vis.LiveTasks → List Vis.Event → Option (Vis.V2VService × Vis.LiveTasks)
  | s, l, [] => some (s, l)
  | s, l, ev :: rest =>
    match Vis.step ser s ev with
    | none => none
    | some (t, out) => Vis.runLive ser t (Vis.liveAfter t out l) rest
/-! ## The framing codec -/

namespace Codec

theorem hexVal_hexChar (d : Nat) (h : d < 16) : hexVal (hexChar d) = some d := by
  interval_cases d <;> rfl

theorem zeroPaddedHex_length (w n : Nat) : (zeroPaddedHex w n).length = w := by
  simp [zeroPaddedHex]

theorem zeroPaddedHex_succ (w n : Nat) :
    zeroPaddedHex (w + 1) n = zeroPaddedHex w (n / 16) ++ [hexChar (n % 16)] := by
  unfold zeroPaddedHex
  rw [List.range_succ, List.map_append]
  congr 1
  · apply List.map_congr_left
    intro i hi
    have hi2 : i < w := List.mem_range.mp hi
    have e : w + 1 - 1 - i = (w - 1 - i) + 1 := by omega
    rw [e, pow_succ, Nat.div_div_eq_div_mul, Nat.mul_comm]
  · simp

theorem zeroPaddedHex_zero (w : Nat) : zeroPaddedHex w 0 = List.replicate w '0' := by
  induction w with
  | zero => rfl
  | succ w ih =>
    rw [zeroPaddedHex_succ, Nat.zero_div, ih, List.replicate_succ']
    rfl

theorem toHexAux_spec (w : Nat) : ∀ (fuel n : Nat) (acc : Str), n < 16 ^ (w + 1) → n < fuel →
    ∃ z, z ≤ w ∧ toHexAux fuel n acc = (zeroPaddedHex (w + 1) n).drop z ++ acc ∧
      (zeroPaddedHex (w + 1) n).take z = List.replicate z '0' := by
  induction w with
  | zero =>
    intro fuel n acc hn hf
    obtain ⟨f, rfl⟩ : ∃ f, fuel = f + 1 := ⟨fuel - 1, by omega⟩
    refine ⟨0, le_refl _, ?_, by simp⟩
    have h0 : n / 16 = 0 := by omega
    simp [toHexAux, h0, zeroPaddedHex_succ, zeroPaddedHex]
  | succ w ih =>
    intro fuel n acc hn hf
    obtain ⟨f, rfl⟩ : ∃ f, fuel = f + 1 := ⟨fuel - 1, by omega⟩
    by_cases h0 : n / 16 = 0
    · refine ⟨w + 1, le_refl _, ?_, ?_⟩
      · rw [zeroPaddedHex_succ, h0, zeroPaddedHex_zero]
        simp [toHexAux, h0]
      · rw [zeroPaddedHex_succ, h0, zeroPaddedHex_zero]
        simp
    · have hn2 : n / 16 < 16 ^ (w + 1) := by
        rw [pow_succ] at hn
        exact Nat.div_lt_of_lt_mul (by rw [Nat.mul_comm]; exact hn)
      have hf2 : n / 16 < f := by omega
      obtain ⟨z, hz, h1, h2⟩ := ih f (n / 16) (hexChar (n % 16) :: acc) hn2 hf2
      refine ⟨z, by omega, ?_, ?_⟩
      · rw [zeroPaddedHex_succ (w + 1) n]
        have hl : z ≤ (zeroPaddedHex (w + 1) (n / 16)).length := by
          rw [zeroPaddedHex_length]; omega
        rw [List.drop_append_of_le_length hl]
        simp [toHexAux, h0, h1]
      · rw [zeroPaddedHex_succ (w + 1) n]
        have hl : z ≤ (zeroPaddedHex (w + 1) (n / 16)).length := by
          rw [zeroPaddedHex_length]; omega
        rw [List.take_append_of_le_length hl]
        exact h2

theorem padLeft_toHex (w n : Nat) (hn : n < 16 ^ (w + 1)) :
    padLeft (w + 1) (toHex n) = zeroPaddedHex (w + 1) n := by
  obtain ⟨z, hz, h1, h2⟩ := toHexAux_spec w (n + 1) n [] hn (Nat.lt_succ_self n)
  unfold padLeft toHex
  rw [h1]
  simp only [List.append_nil, List.length_drop, zeroPaddedHex_length]
  have e : w + 1 - (w + 1 - z) = z := by omega
  rw [e, ← h2, List.take_append_drop]

theorem hexVal_lt {c : Char} {d : Nat} (h : hexVal c = some d) : d < 16 := by
  unfold hexVal at h
  split_ifs at h <;> simp at h <;> omega

theorem isSpace_of_hexVal {c : Char} {d : Nat} (h : hexVal c = some d) : isSpace c = false := by
  unfold hexVal at h
  unfold isSpace
  split_ifs at h <;> simp <;> omega

theorem not_sign_of_hexVal {c : Char} {d : Nat} (h : hexVal c = some d) :
    c ≠ '-' ∧ c ≠ '+' := by
  have e1 : hexVal '-' = none := by decide
  have e2 : hexVal '+' = none := by decide
  constructor <;> · rintro rfl; simp_all

theorem not_x_of_hexVal {c : Char} {d : Nat} (h : hexVal c = some d) :
    c ≠ 'x' ∧ c ≠ 'X' := by
  have e1 : hexVal 'x' = none := by decide
  have e2 : hexVal 'X' = none := by decide
  constructor <;> · rintro rfl; simp_all

theorem stripHexPrefix_of_digit (c0 c1 : Char) (r : Str) (h : c1 ≠ 'x' ∧ c1 ≠ 'X') :
    stripHexPrefix (c0 :: c1 :: r) = c0 :: c1 :: r := by
  unfold stripHexPrefix
  split
  · rename_i heq; simp at heq; exact absurd heq.2.1 h.1
  · rename_i heq; simp at heq; exact absurd heq.2.1 h.2
  · rfl

/-- On a field that starts with two hexadecimal digits the extraction is the
plain accumulation of the digit run, clamped at `UINT_MAX`. -/
theorem hexExtract_of_digits (prev : Nat) (c0 c1 : Char) (r : Str) (d0 d1 : Nat)
    (h0 : hexVal c0 = some d0) (h1 : hexVal c1 = some d1) :
    hexExtract prev (c0 :: c1 :: r) =
      if readHex (c0 :: c1 :: r) 0 > UINT_MAX then UINT_MAX else readHex (c0 :: c1 :: r) 0 := by
  have hs := isSpace_of_hexVal h0
  have hsg := not_sign_of_hexVal h0
  have hx := not_x_of_hexVal h1
  unfold hexExtract
  simp only [List.dropWhile_cons, hs, hsg.1, hsg.2, or_self, if_false, Bool.false_eq_true]
  rw [stripHexPrefix_of_digit c0 c1 r hx]

theorem readHex_zeroPaddedHex (w : Nat) : ∀ (n acc : Nat) (rest : Str), n < 16 ^ w →
    readHex (zeroPaddedHex w n ++ rest) acc = readHex rest (16 ^ w * acc + n) := by
  induction w with
  | zero => intro n acc rest hn; simp at hn; subst hn; simp [zeroPaddedHex]
  | succ w ih =>
    intro n acc rest hn
    have hn2 : n / 16 < 16 ^ w := by
      rw [pow_succ] at hn
      exact Nat.div_lt_of_lt_mul (by rw [Nat.mul_comm]; exact hn)
    rw [zeroPaddedHex_succ, List.append_assoc, ih (n / 16) acc _ hn2]
    simp only [List.singleton_append, readHex, hexVal_hexChar (n % 16) (Nat.mod_lt _ (by norm_num))]
    congr 1
    rw [pow_succ]
    have := Nat.div_add_mod n 16
    nlinarith [this]

theorem readHex_of_not_digit (rest : Str) (acc : Nat) (h : ∀ c ∈ rest.head?, hexVal c = none) :
    readHex rest acc = acc := by
  cases rest with
  | nil => rfl
  | cons c r =>
    have hc : hexVal c = none := h c (by simp)
    simp [readHex, hc]

theorem zeroPaddedHex_four (n : Nat) : zeroPaddedHex 4 n =
    [hexChar (n / 4096 % 16), hexChar (n / 256 % 16), hexChar (n / 16 % 16), hexChar (n % 16)] := by
  simp [zeroPaddedHex, List.range_succ]

theorem zeroPaddedHex_six (n : Nat) : zeroPaddedHex 6 n =
    [hexChar (n / 1048576 % 16), hexChar (n / 65536 % 16), hexChar (n / 4096 % 16),
     hexChar (n / 256 % 16), hexChar (n / 16 % 16), hexChar (n % 16)] := by
  simp [zeroPaddedHex, List.range_succ]

theorem encode_eq (ID : Nat) (p : Str) (hID : ID < 2 ^ 16) (hn : p.length < 2 ^ 24) :
    encode ID p = zeroPaddedHex 4 ID ++ (zeroPaddedHex 6 p.length ++ p) := by
  unfold encode
  rw [padLeft_toHex 3 ID (by norm_num at hID ⊢; exact hID),
    padLeft_toHex 5 p.length (by norm_num at hn ⊢; exact hn)]

/-- What `extract` computes on an input split as four characters, six
characters and the rest. -/
theorem extract_split (id0 len0 : Nat) (h4 f6 p : Str) (h4l : h4.length = 4)
    (f6l : f6.length = 6) :
    extract id0 len0 (h4 ++ (f6 ++ p)) =
      some (toInt16 (if p.length = hexExtract len0 (f6 ++ p.take 4)
                     then hexExtract id0 h4 else UINT_MAX), p) := by
  have hlen : (h4 ++ (f6 ++ p)).length = 10 + p.length := by
    simp [h4l, f6l]; omega
  have e1 : substr (h4 ++ (f6 ++ p)) 0 4 = some h4 := by
    simp [substr, List.take_left' h4l]
  have e2 : substr (h4 ++ (f6 ++ p)) 4 10 = some (f6 ++ p.take 4) := by
    have : (4 : Nat) ≤ (h4 ++ (f6 ++ p)).length := by omega
    simp only [substr, this, if_true, List.drop_left' h4l]
    rw [List.take_append_eq_append_take, f6l]
    simp [List.take_of_length_le (le_of_eq f6l |>.trans (by norm_num : (6:Nat) ≤ 10))]
  have e3 : substr (h4 ++ (f6 ++ p)) 10 ((h4 ++ (f6 ++ p)).length - 10) = some p := by
    have : (10 : Nat) ≤ (h4 ++ (f6 ++ p)).length := by omega
    have hl : (h4 ++ f6).length = 10 := by simp [h4l, f6l]
    simp only [substr, this, if_true]
    rw [hlen, ← List.append_assoc, List.drop_left' hl]
    simp
  unfold extract
  rw [if_neg (by omega), e1, e2, e3]
  simp only [hlen, Nat.add_sub_cancel_left]

theorem readHex_zeroPaddedHex_stop (w n : Nat) (rest : Str) (hn : n < 16 ^ w)
    (hr : ∀ c ∈ rest.head?, hexVal c = none) :
    readHex (zeroPaddedHex w n ++ rest) 0 = n := by
  rw [readHex_zeroPaddedHex w n 0 rest hn, readHex_of_not_digit rest _ hr]
  simp

theorem hexExtract_zeroPaddedHex_four (prev n : Nat) (rest : Str) (hn : n < 16 ^ 4)
    (hr : ∀ c ∈ rest.head?, hexVal c = none) :
    hexExtract prev (zeroPaddedHex 4 n ++ rest) = n := by
  have key := readHex_zeroPaddedHex_stop 4 n rest hn hr
  rw [zeroPaddedHex_four] at key ⊢
  simp only [List.cons_append] at key ⊢
  rw [hexExtract_of_digits prev _ _ _ _ _
    (hexVal_hexChar _ (Nat.mod_lt _ (by norm_num))) (hexVal_hexChar _ (Nat.mod_lt _ (by norm_num))),
    key, if_neg]
  unfold UINT_MAX
  norm_num at hn
  omega

theorem hexExtract_zeroPaddedHex_six (prev n : Nat) (rest : Str) (hn : n < 16 ^ 6)
    (hr : ∀ c ∈ rest.head?, hexVal c = none) :
    hexExtract prev (zeroPaddedHex 6 n ++ rest) = n := by
  have key := readHex_zeroPaddedHex_stop 6 n rest hn hr
  rw [zeroPaddedHex_six] at key ⊢
  simp only [List.cons_append] at key ⊢
  rw [hexExtract_of_digits prev _ _ _ _ _
    (hexVal_hexChar _ (Nat.mod_lt _ (by norm_num))) (hexVal_hexChar _ (Nat.mod_lt _ (by norm_num))),
    key, if_neg]
  unfold UINT_MAX
  norm_num at hn
  omega

theorem toInt16_of_lt (u : Nat) (h : u < 32768) : toInt16 u = (u : Int) := by
  unfold toInt16
  have e : u % 65536 = u := Nat.mod_eq_of_lt (by omega)
  rw [e, if_pos h]

theorem head?_take_four (p : Str) (hp : ∀ c ∈ p.head?, hexVal c = none) :
    ∀ c ∈ (p.take 4).head?, hexVal c = none := by
  cases p with
  | nil => simp
  | cons a r => simpa using hp

/-- C1, as amended. Framing round-trip: for every type code below `2 ^ 15` and
every payload shorter than `2 ^ 24` characters that does not begin with a
hexadecimal digit, `extract` applied to the frame built by `encode` returns
exactly that type code and exactly that payload. -/
theorem extract_encode_roundtrip (id0 len0 ID : Nat) (p : Str) (hID : ID < 2 ^ 15)
    (hn : p.length < 2 ^ 24) (hp : ∀ c ∈ p.head?, hexVal c = none) :
    extract id0 len0 (encode ID p) = some ((ID : Int), p) := by
  have hID16 : ID < 2 ^ 16 := by norm_num at hID ⊢; omega
  rw [encode_eq ID p hID16 hn,
    extract_split id0 len0 _ _ p (zeroPaddedHex_length 4 ID) (zeroPaddedHex_length 6 p.length),
    hexExtract_zeroPaddedHex_six len0 p.length (p.take 4) (by norm_num at hn ⊢; exact hn)
      (head?_take_four p hp),
    if_pos rfl]
  have h4 := hexExtract_zeroPaddedHex_four id0 ID [] (by norm_num at hID16 ⊢; exact hID16)
    (by simp)
  rw [List.append_nil] at h4
  rw [h4, toInt16_of_lt ID (by norm_num at hID; exact hID)]

theorem extract_encode_roundtrip_witness :
    (1003 < 2 ^ 15 ∧ ['\x08', '\x01'].length < 2 ^ 24 ∧
      ∀ c ∈ ['\x08', '\x01'].head?, hexVal c = none) ∧
    extract 7 9 (encode 1003 ['\x08', '\x01']) = some ((1003 : Int), ['\x08', '\x01']) :=
  ⟨by decide,
   extract_encode_roundtrip 7 9 1003 ['\x08', '\x01'] (by decide) (by decide) (by decide)⟩

/-- Two frames built by `encode` that `extract` does not read back: the type
code `0x8000` with an empty payload comes back as `-32768`, and the type code
1002 with the payload `1` comes back as the error sentinel. -/
theorem extract_encode_roundtrip_fails :
    (extract 0 0 (encode 32768 []) = some (-32768, []) ∧
      extract 0 0 (encode 32768 []) ≠ some (32768, [])) ∧
    (extract 0 0 (encode 1002 ['1']) = some (-1, ['1']) ∧
      extract 0 0 (encode 1002 ['1']) ≠ some (1002, ['1'])) := by
  decide

/-- C2. On the 11-character input `03ea0000001` the six digits at positions
4..9 denote 0 while one payload character follows the header, and `extract`
returns the type code 1002 instead of the error sentinel. -/
theorem extract_accepts_length_mismatch :
    readHex (("03ea0000001".toList.drop 4).take 6) 0 = 0 ∧
    "03ea0000001".toList.length - 10 = 1 ∧
    extract 0 0 "03ea0000001".toList = some (1002, ['1']) := by
  decide

/-- C3, as amended. Minimum frame length is 10: every input shorter than 10
characters yields `(-1, "")`, and a 10-character input made of four
hexadecimal digits denoting a type code below `0x8000` followed by the length
field `000000` is accepted with that type code and an empty payload. -/
theorem extract_minimum_frame (id0 len0 : Nat) (short : Str) (c0 c1 c2 c3 : Char)
    (d0 d1 d2 d3 : Nat) (hshort : short.length < 10)
    (h0 : hexVal c0 = some d0) (h1 : hexVal c1 = some d1)
    (h2 : hexVal c2 = some d2) (h3 : hexVal c3 = some d3)
    (hcode : ((d0 * 16 + d1) * 16 + d2) * 16 + d3 < 32768) :
    extract id0 len0 short = some (-1, []) ∧
    extract id0 len0 ([c0, c1, c2, c3] ++ "000000".toList) =
      some (((((d0 * 16 + d1) * 16 + d2) * 16 + d3 : Nat) : Int), []) := by
  constructor
  · unfold extract
    rw [if_pos hshort]
  · have hs := extract_split id0 len0 [c0, c1, c2, c3] "000000".toList [] rfl rfl
    rw [List.append_nil] at hs
    rw [hs]
    have e6 : hexExtract len0 ("000000".toList ++ List.take 4 []) = 0 := rfl
    have e4 : hexExtract id0 [c0, c1, c2, c3] = ((d0 * 16 + d1) * 16 + d2) * 16 + d3 := by
      rw [hexExtract_of_digits id0 c0 c1 [c2, c3] d0 d1 h0 h1]
      have v : readHex [c0, c1, c2, c3] 0 = ((d0 * 16 + d1) * 16 + d2) * 16 + d3 := by
        simp only [readHex, h0, h1, h2, h3]
        ring
      rw [v, if_neg]
      unfold UINT_MAX
      omega
    rw [e6, e4, List.length_nil, if_pos rfl, toInt16_of_lt _ hcode]

theorem extract_minimum_frame_witness :
    ("03ea".toList.length < 10 ∧ hexVal '0' = some 0 ∧ hexVal '3' = some 3 ∧
      hexVal 'E' = some 14 ∧ hexVal 'a' = some 10 ∧
      ((0 * 16 + 3) * 16 + 14) * 16 + 10 < 32768) ∧
    (extract 5 6 "03ea".toList = some (-1, []) ∧
      extract 5 6 (['0', '3', 'E', 'a'] ++ "000000".toList) =
        some (((((0 * 16 + 3) * 16 + 14) * 16 + 10 : Nat) : Int), [])) :=
  ⟨by decide,
   extract_minimum_frame 5 6 "03ea".toList '0' '3' 'E' 'a' 0 3 14 10
     (by decide) (by decide) (by decide) (by decide) (by decide) (by decide)⟩

/-- Two 10-character inputs with a four-digit type code and the length field
`000000` whose type code is not returned: `ffff` yields the error sentinel and
`8000` yields `-32768`. -/
theorem extract_minimum_frame_fails :
    extract 0 0 "ffff000000".toList = some (-1, []) ∧
    extract 0 0 "8000000000".toList = some (-32768, []) ∧
    extract 0 0 "8000000000".toList ≠ some (32768, []) := by
  decide

/-- C4. Wire format of `encode`: for a type code below `2 ^ 16` and a payload
`p` of length `n` below `2 ^ 24` the frame has exactly `10 + n` characters;
its first four are the zero-padded hexadecimal type code, the next six the
zero-padded hexadecimal value of `n`, and the remaining ones are `p`. -/
theorem encode_wire_format (ID : Nat) (p : Str) (hID : ID < 2 ^ 16) (hn : p.length < 2 ^ 24) :
    (encode ID p).length = 10 + p.length ∧
    (encode ID p).take 4 = zeroPaddedHex 4 ID ∧
    ((encode ID p).drop 4).take 6 = zeroPaddedHex 6 p.length ∧
    (encode ID p).drop 10 = p := by
  have l4 := zeroPaddedHex_length 4 ID
  have l6 := zeroPaddedHex_length 6 p.length
  rw [encode_eq ID p hID hn]
  refine ⟨?_, ?_, ?_, ?_⟩
  · simp [l4, l6]; omega
  · exact List.take_left' l4
  · rw [List.drop_left' l4]; exact List.take_left' l6
  · rw [← List.append_assoc]
    exact List.drop_left' (by simp [l4, l6])

theorem encode_wire_format_witness :
    (1004 < 2 ^ 16 ∧ ['\x08', 'a', 'b'].length < 2 ^ 24) ∧
    ((encode 1004 ['\x08', 'a', 'b']).length = 13 ∧
     (encode 1004 ['\x08', 'a', 'b']).take 4 = "03ec".toList ∧
     ((encode 1004 ['\x08', 'a', 'b']).drop 4).take 6 = "000003".toList ∧
     (encode 1004 ['\x08', 'a', 'b']).drop 10 = ['\x08', 'a', 'b']) :=
  have h := encode_wire_format 1004 ['\x08', 'a', 'b'] (by decide) (by decide)
  ⟨by decide, h.1, h.2.1.trans (by decide), h.2.2.1.trans (by decide), h.2.2.2⟩

end Codec

/-! ## The channel-handle invariant -/

section Invariant

open Codec

theorem Outcome.andThen_eq_some {σ : Type} {r : Outcome σ} {f : σ → Outcome σ} {t : σ}
    {o : List Effect} (h : Outcome.andThen r f = some (t, o)) :
    ∃ m o1 o2, r = some (m, o1) ∧ f m = some (t, o2) ∧ o = o1 ++ o2 := by
  unfold Outcome.andThen at h
  cases r with
  | none => simp at h
  | some p =>
    obtain ⟨m, o1⟩ := p
    simp only at h
    cases hf : f m with
    | none => rw [hf] at h; simp at h
    | some q =>
      obtain ⟨t2, o2⟩ := q
      rw [hf] at h
      simp only [Option.some.injEq, Prod.mk.injEq] at h
      obtain ⟨rfl, rfl⟩ := h
      exact ⟨m, o1, o2, rfl, hf, rfl⟩

namespace Vis

variable (ser : Msg → Str)

theorem followRequest_handlesOk {s t : V2VService} {v : Str} {o : List Effect}
    (h : HandlesOk s) (e : followRequest ser s v = some (t, o)) : HandlesOk t := by
  unfold followRequest at e
  split_ifs at e with hl
  · simp at e; obtain ⟨rfl, _⟩ := e; exact h
  · simp [sendVia] at e; obtain ⟨rfl, _⟩ := e; exact ⟨fun _ => rfl, h.2⟩

theorem followResponse_state {s t : V2VService} {o : List Effect}
    (e : followResponse ser s = some (t, o)) : t = s := by
  unfold followResponse at e
  split_ifs at e with hl
  · simp at e; exact e.1.symm
  · split at e
    · simp at e
    · simp at e; exact e.1.symm

theorem stopFollowLeader_handlesOk {s t : V2VService} {o : List Effect}
    (h : HandlesOk s) (e : stopFollowLeader ser s = some (t, o)) : HandlesOk t := by
  unfold stopFollowLeader at e
  split_ifs at e with hl
  · split at e
    · simp at e
    · simp at e; obtain ⟨rfl, _⟩ := e; exact ⟨fun c => absurd rfl c, h.2⟩
  · simp at e; obtain ⟨rfl, _⟩ := e; exact h

theorem stopFollowFollower_handlesOk {s t : V2VService} {o : List Effect}
    (h : HandlesOk s) (e : stopFollowFollower ser s = some (t, o)) : HandlesOk t := by
  unfold stopFollowFollower at e
  split_ifs at e with hl
  · split at e
    · simp at e
    · simp at e; obtain ⟨rfl, _⟩ := e; exact ⟨h.1, fun c => absurd rfl c⟩
  · simp at e; obtain ⟨rfl, _⟩ := e; exact h

theorem stopFollow_handlesOk {s t : V2VService} {o : List Effect}
    (h : HandlesOk s) (e : stopFollow ser s = some (t, o)) : HandlesOk t := by
  unfold stopFollow at e
  obtain ⟨m, o1, o2, e1, e2, _⟩ := Outcome.andThen_eq_some e
  exact stopFollowFollower_handlesOk ser (stopFollowLeader_handlesOk ser h e1) e2

theorem followerStatus_state {s t : V2VService} {o : List Effect}
    (e : followerStatus ser s = some (t, o)) : t = s := by
  unfold followerStatus at e
  split_ifs at e with hl
  · simp at e; exact e.1.symm
  · split at e
    · simp at e
    · simp at e; exact e.1.symm

theorem leaderStatus_state {s t : V2VService} {o : List Effect} {a b c : Reading}
    {now : Timeval} (e : leaderStatus ser s a b c now = some (t, o)) : t = s := by
  unfold leaderStatus at e
  split_ifs at e with hl
  · simp at e; exact e.1.symm
  · simp only at e
    split at e
    · simp at e
    · simp at e; exact e.1.symm

theorem broadcastHandler_handlesOk {s t : V2VService} {env : OD4Msg} {o : List Effect}
    (h : HandlesOk s) (e : broadcastHandler s env = some (t, o)) : HandlesOk t := by
  unfold broadcastHandler at e
  split at e
  · simp only [Option.some.injEq, Prod.mk.injEq] at e
    obtain ⟨rfl, _⟩ := e
    split_ifs
    · exact h
    · exact h
  · simp at e; obtain ⟨rfl, _⟩ := e; exact h

theorem motorBroadcastHandler_handlesOk {s t : V2VService} {env : OD4Msg} {o : List Effect}
    (h : HandlesOk s) (e : motorBroadcastHandler s env = some (t, o)) : HandlesOk t := by
  unfold motorBroadcastHandler at e
  split at e <;> (simp at e; obtain ⟨rfl, _⟩ := e; exact h)

theorem internalBroadCastHandler_handlesOk {s t : V2VService} {env : OD4Msg} {o : List Effect}
    (h : HandlesOk s) (e : internalBroadCastHandler ser s env = some (t, o)) : HandlesOk t := by
  unfold internalBroadCastHandler at e
  split at e
  · obtain ⟨m, o1, o2, e1, e2, _⟩ := Outcome.andThen_eq_some e
    simp [announcePresence] at e1
    simp at e2
    obtain ⟨rfl, _⟩ := e1
    obtain ⟨rfl, _⟩ := e2
    exact h
  · obtain ⟨m, o1, o2, e1, e2, _⟩ := Outcome.andThen_eq_some e
    simp at e1
    obtain ⟨rfl, _⟩ := e1
    split_ifs at e2 with hl
    · refine followRequest_handlesOk ser ?_ e2
      exact h
    · simp at e2; obtain ⟨rfl, _⟩ := e2; exact h
  · obtain ⟨m, o1, o2, e1, e2, _⟩ := Outcome.andThen_eq_some e
    obtain ⟨m2, o3, o4, e3, e4, _⟩ := Outcome.andThen_eq_some e1
    simp at e3
    obtain ⟨rfl, _⟩ := e3
    simp at e2
    obtain ⟨rfl, _⟩ := e2
    exact stopFollow_handlesOk ser h e4
  · simp at e; obtain ⟨rfl, _⟩ := e; exact h
  · obtain ⟨m, o1, o2, e1, e2, _⟩ := Outcome.andThen_eq_some e
    obtain ⟨m2, o3, o4, e3, e4, _⟩ := Outcome.andThen_eq_some e1
    simp at e3
    obtain ⟨rfl, _⟩ := e3
    simp at e2
    obtain ⟨rfl, _⟩ := e2
    exact stopFollow_handlesOk ser h e4
  · simp at e; obtain ⟨rfl, _⟩ := e; exact h

theorem incomingHandler_handlesOk {s t : V2VService} {data sender : Str} {id0 len0 : Nat}
    {now : Timeval} {o : List Effect}
    (h : HandlesOk s) (e : incomingHandler ser s data sender id0 len0 now = some (t, o)) :
    HandlesOk t := by
  unfold incomingHandler at e
  split at e
  · rename_i msg senderIp _ _
    split_ifs at e with c1 c2 c3 c4 c5 c6 c7 c8
    · obtain ⟨m, o1, o2, e1, e2, _⟩ := Outcome.andThen_eq_some e
      have := followResponse_state ser e1
      subst this
      simp [startReportingToFollower] at e2
      obtain ⟨rfl, _⟩ := e2
      exact ⟨h.1, fun _ => rfl⟩
    · simp at e; obtain ⟨rfl, _⟩ := e; exact h
    · obtain ⟨m, o1, o2, e1, e2, _⟩ := Outcome.andThen_eq_some e
      simp [startReportingToLeader] at e1
      obtain ⟨rfl, _⟩ := e1
      simp at e2
      obtain ⟨rfl, _⟩ := e2
      exact h
    · simp at e; obtain ⟨rfl, _⟩ := e; exact ⟨h.1, fun c => absurd rfl c⟩
    · simp at e; obtain ⟨rfl, _⟩ := e; exact ⟨fun c => absurd rfl c, h.2⟩
    all_goals (simp at e; obtain ⟨rfl, _⟩ := e; exact h)
  · simp at e

theorem step_handlesOk {s t : V2VService} {ev : Event} {o : List Effect}
    (h : HandlesOk s) (e : step ser s ev = some (t, o)) : HandlesOk t := by
  cases ev with
  | broadcast env => exact broadcastHandler_handlesOk h e
  | internalBroadCast env => exact internalBroadCastHandler_handlesOk ser h e
  | motorBroadcast env => exact motorBroadcastHandler_handlesOk h e
  | incoming data sender id0 len0 now => exact incomingHandler_handlesOk ser h e
  | announcePresence =>
    simp [step, announcePresence] at e; obtain ⟨rfl, _⟩ := e; exact h
  | followRequest v => exact followRequest_handlesOk ser h e
  | followResponse => rw [followResponse_state ser e]; exact h
  | stopFollow => exact stopFollow_handlesOk ser h e
  | followerStatus => rw [followerStatus_state ser e]; exact h
  | leaderStatus a b c now => rw [leaderStatus_state ser e]; exact h
  | setCurrentCarStatus c =>
    simp [step, setCurrentCarStatus] at e; obtain ⟨rfl, _⟩ := e; exact h
  | sendFollowerStatusesIter =>
    simp only [step, sendFollowerStatusesIter] at e
    split_ifs at e
    · rw [followerStatus_state ser e]; exact h
    · simp at e; obtain ⟨rfl, _⟩ := e; exact h
  | sendLeaderStatusesIter now =>
    simp only [step, sendLeaderStatusesIter] at e
    split_ifs at e
    · rw [leaderStatus_state ser e]; exact h
    · simp at e; obtain ⟨rfl, _⟩ := e; exact h

theorem run_handlesOk (evs : List Event) : ∀ {s t : V2VService} {o : List Effect},
    HandlesOk s → run ser s evs = some (t, o) → HandlesOk t := by
  induction evs with
  | nil => intro s t o h e; simp [run] at e; obtain ⟨rfl, _⟩ := e; exact h
  | cons ev rest ih =>
    intro s t o h e
    simp only [run] at e
    obtain ⟨m, o1, o2, e1, e2, _⟩ := Outcome.andThen_eq_some e
    exact ih (step_handlesOk ser h e1) e2

/-- Every state the control-plane service can be in satisfies the
channel-handle invariant. -/
theorem reachable_handlesOk {s : V2VService} (h : Reachable ser s) : HandlesOk s := by
  obtain ⟨ip, g, evs, o, e⟩ := h
  exact run_handlesOk ser evs (by simp [HandlesOk, init]) e

end Vis

end Invariant

/-! ## The follow-link state machine -/

section Handshake

open Codec

theorem senderIpOf_isSome (sender : Str) : ∃ ip, senderIpOf sender = some ip :=
  ⟨(sender.drop 0).take (find sender ':'), by simp [senderIpOf, substr]⟩

theorem extract_code_eq {id0 len0 : Nat} {data : Str} {c : Int}
    (h : (extract id0 len0 data).map Prod.fst = some c) :
    ∃ payload, extract id0 len0 data = some (c, payload) := by
  cases he : extract id0 len0 data with
  | none => rw [he] at h; simp at h
  | some r =>
    obtain ⟨a, b⟩ := r
    rw [he] at h
    simp at h
    exact ⟨b, by rw [h]⟩

/-- C6. Conflict rejection: in a state whose incoming link exists (a non-empty
`followerIp`), a datagram read as a FollowRequest, from any sender, leaves the
whole state unchanged (so the incoming link keeps its peer and the outgoing
link is untouched) and produces no effect at all: no frame is sent and no
thread is started. Both variants. -/
theorem followRequest_conflict_rejected (ser : Msg → Str) (sv : Vis.V2VService)
    (sb : V2V.V2VService) (data sender : Str) (id0 len0 : Nat) (now : Timeval)
    (hv : sv.followerIp ≠ []) (hb : sb.followerIp ≠ [])
    (hreq : (extract id0 len0 data).map Prod.fst = some FOLLOW_REQUEST) :
    Vis.incomingHandler ser sv data sender id0 len0 now = some (sv, []) ∧
    V2V.incomingHandler ser sb data sender id0 len0 = some (sb, []) := by
  obtain ⟨payload, he⟩ := extract_code_eq hreq
  obtain ⟨ip, hip⟩ := senderIpOf_isSome sender
  constructor
  · simp [Vis.incomingHandler, he, hip, hv]
  · simp [V2V.incomingHandler, he, hip, hb]

theorem followRequest_conflict_rejected_witness :
    (({ Vis.init "10.0.0.2".toList "7".toList with
          followerIp := "10.0.0.3".toList, toFollower := some "10.0.0.3".toList } :
        Vis.V2VService).followerIp ≠ [] ∧
      ({ V2V.init with
          followerIp := "10.0.0.3".toList, toFollower := some "10.0.0.3".toList } :
        V2V.V2VService).followerIp ≠ [] ∧
      (extract 0 0 "03ea000000".toList).map Prod.fst = some FOLLOW_REQUEST) ∧
    (Vis.incomingHandler emptySer
        { Vis.init "10.0.0.2".toList "7".toList with
          followerIp := "10.0.0.3".toList, toFollower := some "10.0.0.3".toList }
        "03ea000000".toList "10.0.0.1:50001".toList 0 0 ⟨0, 0⟩ =
      some ({ Vis.init "10.0.0.2".toList "7".toList with
          followerIp := "10.0.0.3".toList, toFollower := some "10.0.0.3".toList }, []) ∧
     V2V.incomingHandler emptySer
        { V2V.init with
          followerIp := "10.0.0.3".toList, toFollower := some "10.0.0.3".toList }
        "03ea000000".toList "10.0.0.1:50001".toList 0 0 =
      some ({ V2V.init with
          followerIp := "10.0.0.3".toList, toFollower := some "10.0.0.3".toList }, [])) :=
  ⟨by decide,
   followRequest_conflict_rejected emptySer _ _ "03ea000000".toList "10.0.0.1:50001".toList
     0 0 ⟨0, 0⟩ (by decide) (by decide) (by decide)⟩

/-- C7, as amended. Handshake acceptance: in a state with no incoming link, a
datagram read as a FollowRequest whose sender address has a non-empty IP part
`ip` sets the incoming link to `ip` (peer and handle), sends exactly one frame,
to `ip`, which is the encoded FollowResponse (type code 1003), and leaves the
outgoing link unchanged; the control-plane variant also records the time stamp
and then starts the leader-telemetry thread. -/
theorem followRequest_accepted (ser : Msg → Str) (sv : Vis.V2VService)
    (sb : V2V.V2VService) (data sender ip : Str) (id0 len0 : Nat) (now : Timeval)
    (hv : sv.followerIp = []) (hb : sb.followerIp = [])
    (hreq : (extract id0 len0 data).map Prod.fst = some FOLLOW_REQUEST)
    (hip : senderIpOf sender = some ip) (hne : ip ≠ []) :
    Vis.incomingHandler ser sv data sender id0 len0 now =
      some ({ sv with followerIp := ip, toFollower := some ip,
                      lastFollowerUpdate := some (getTime now.tv_sec now.tv_usec) },
            [Effect.udp ip (encode 1003 (ser Msg.followResponse)),
             Effect.thread SenderThread.sendLeaderStatuses]) ∧
    V2V.incomingHandler ser sb data sender id0 len0 =
      some ({ sb with followerIp := ip, toFollower := some ip },
            [Effect.udp ip (encode 1003 (ser Msg.followResponse))]) := by
  obtain ⟨payload, he⟩ := extract_code_eq hreq
  constructor
  · simp [Vis.incomingHandler, he, hip, hv, Vis.followResponse, hne, sendVia, Outcome.andThen,
      Vis.startReportingToFollower, Msg.ID]
  · simp [V2V.incomingHandler, he, hip, hb, V2V.followResponse, hne, sendVia, Msg.ID]

theorem followRequest_accepted_witness :
    ((Vis.init "10.0.0.2".toList "7".toList).followerIp = [] ∧
      V2V.init.followerIp = [] ∧
      (extract 0 0 "03ea000000".toList).map Prod.fst = some FOLLOW_REQUEST ∧
      senderIpOf "10.0.0.1:50001".toList = some "10.0.0.1".toList ∧
      "10.0.0.1".toList ≠ []) ∧
    (Vis.incomingHandler emptySer (Vis.init "10.0.0.2".toList "7".toList)
        "03ea000000".toList "10.0.0.1:50001".toList 0 0 ⟨12, 345678⟩ =
      some ({ Vis.init "10.0.0.2".toList "7".toList with
                followerIp := "10.0.0.1".toList, toFollower := some "10.0.0.1".toList,
                lastFollowerUpdate := some (getTime 12 345678) },
            [Effect.udp "10.0.0.1".toList (encode 1003 (emptySer Msg.followResponse)),
             Effect.thread SenderThread.sendLeaderStatuses]) ∧
     V2V.incomingHandler emptySer V2V.init "03ea000000".toList "10.0.0.1:50001".toList 0 0 =
      some ({ V2V.init with
                followerIp := "10.0.0.1".toList, toFollower := some "10.0.0.1".toList },
            [Effect.udp "10.0.0.1".toList (encode 1003 (emptySer Msg.followResponse))])) :=
  ⟨by decide,
   followRequest_accepted emptySer _ _ "03ea000000".toList "10.0.0.1:50001".toList
     "10.0.0.1".toList 0 0 ⟨12, 345678⟩ (by decide) (by decide) (by decide) (by decide)
     (by decide)⟩

/-- A FollowRequest from the sender address `:50001`, whose IP part is empty,
received in the state left by the constructor: `followerIp` stays empty and no
frame is sent, in either variant. -/
theorem followRequest_accepted_fails :
    senderIpOf ":50001".toList = some [] ∧
    Vis.incomingHandler emptySer (Vis.init "10.0.0.2".toList "7".toList)
        "03ea000000".toList ":50001".toList 0 0 ⟨0, 0⟩ =
      some ({ Vis.init "10.0.0.2".toList "7".toList with
                toFollower := some [], lastFollowerUpdate := some 0 },
            [Effect.thread SenderThread.sendLeaderStatuses]) ∧
    V2V.incomingHandler emptySer V2V.init "03ea000000".toList ":50001".toList 0 0 =
      some ({ V2V.init with toFollower := some [] }, []) := by
  decide

/-- C8, as amended. `followRequest` success: in a state with no outgoing link,
`followRequest(peerIp)` with a non-empty `peerIp` makes the outgoing link
present with peer `peerIp` (peer and handle), sends exactly one frame, to
`peerIp`, which is the encoded FollowRequest (type code 1002), and changes
nothing else, the incoming link included. Both variants. -/
theorem followRequest_success (ser : Msg → Str) (sv : Vis.V2VService) (sb : V2V.V2VService)
    (peerIp : Str) (hv : sv.leaderIp = []) (hb : sb.leaderIp = []) (hne : peerIp ≠ []) :
    (Vis.followRequest ser sv peerIp =
        some ({ sv with leaderIp := peerIp, toLeader := some peerIp },
              [Effect.udp peerIp (encode 1002 (ser Msg.followRequest))]) ∧
      ({ sv with leaderIp := peerIp, toLeader := some peerIp } : Vis.V2VService).leaderIp ≠ [] ∧
      ({ sv with leaderIp := peerIp, toLeader := some peerIp } : Vis.V2VService).followerIp =
        sv.followerIp) ∧
    (V2V.followRequest ser sb peerIp =
        some ({ sb with leaderIp := peerIp, toLeader := some peerIp },
              [Effect.udp peerIp (encode 1002 (ser Msg.followRequest))]) ∧
      ({ sb with leaderIp := peerIp, toLeader := some peerIp } : V2V.V2VService).leaderIp ≠ [] ∧
      ({ sb with leaderIp := peerIp, toLeader := some peerIp } : V2V.V2VService).followerIp =
        sb.followerIp) := by
  refine ⟨⟨?_, hne, rfl⟩, ⟨?_, hne, rfl⟩⟩
  · simp [Vis.followRequest, hv, sendVia, Msg.ID]
  · simp [V2V.followRequest, hb, sendVia, Msg.ID]

theorem followRequest_success_witness :
    ((Vis.init "10.0.0.2".toList "7".toList).leaderIp = [] ∧ V2V.init.leaderIp = [] ∧
      "10.0.0.1".toList ≠ []) ∧
    (Vis.followRequest emptySer (Vis.init "10.0.0.2".toList "7".toList) "10.0.0.1".toList =
        some ({ Vis.init "10.0.0.2".toList "7".toList with
                  leaderIp := "10.0.0.1".toList, toLeader := some "10.0.0.1".toList },
              [Effect.udp "10.0.0.1".toList "03ea000000".toList]) ∧
     V2V.followRequest emptySer V2V.init "10.0.0.1".toList =
        some ({ V2V.init with
                  leaderIp := "10.0.0.1".toList, toLeader := some "10.0.0.1".toList },
              [Effect.udp "10.0.0.1".toList "03ea000000".toList])) :=
  ⟨by decide,
   (followRequest_success emptySer (Vis.init "10.0.0.2".toList "7".toList) V2V.init
      "10.0.0.1".toList (by decide) (by decide) (by decide)).1.1,
   (followRequest_success emptySer (Vis.init "10.0.0.2".toList "7".toList) V2V.init
      "10.0.0.1".toList (by decide) (by decide) (by decide)).2.1⟩

/-- The call `followRequest("")` in the state left by the constructor sends a
frame and leaves `leaderIp` empty; the control-plane handler makes this call
for a group id that is not registered. -/
theorem followRequest_success_fails :
    (Vis.followRequest emptySer (Vis.init "10.0.0.2".toList "7".toList) [] =
        some ({ Vis.init "10.0.0.2".toList "7".toList with toLeader := some [] },
              [Effect.udp [] "03ea000000".toList]) ∧
      ({ Vis.init "10.0.0.2".toList "7".toList with toLeader := some [] } :
        Vis.V2VService).leaderIp = []) ∧
    Vis.internalBroadCastHandler emptySer (Vis.init "10.0.0.2".toList "7".toList)
        (OD4Msg.internalFollowRequest "9".toList) =
      some ({ Vis.init "10.0.0.2".toList "7".toList with
                mapOfIps := [("9".toList, [])], toLeader := some [] },
            [Effect.od4 Channel.visualisation (OD4Msg.internalFollowRequest "9".toList),
             Effect.udp [] "03ea000000".toList]) ∧
    V2V.followRequest emptySer V2V.init [] =
      some ({ V2V.init with toLeader := some [] }, [Effect.udp [] "03ea000000".toList]) := by
  decide

/-- C9, as amended. Resolution order of an inbound StopFollow: a datagram read as
a StopFollow whose sender has the IP part `ip` clears the incoming link (peer
and handle, and only it) if `ip` equals `followerIp`; otherwise it clears the
outgoing link (and only it) if `ip` equals `leaderIp`; otherwise the state is
unchanged. No effect is produced in any case, so no frame is sent. Both
variants. -/
theorem stopFollow_datagram_resolution (ser : Msg → Str) (sv : Vis.V2VService)
    (sb : V2V.V2VService) (data sender ip : Str) (id0 len0 : Nat) (now : Timeval)
    (hstop : (extract id0 len0 data).map Prod.fst = some STOP_FOLLOW)
    (hip : senderIpOf sender = some ip) :
    Vis.incomingHandler ser sv data sender id0 len0 now =
      some (if ip = sv.followerIp then { sv with followerIp := [], toFollower := none }
            else if ip = sv.leaderIp then { sv with leaderIp := [], toLeader := none }
            else sv, []) ∧
    V2V.incomingHandler ser sb data sender id0 len0 =
      some (if ip = sb.followerIp then { sb with followerIp := [], toFollower := none }
            else if ip = sb.leaderIp then { sb with leaderIp := [], toLeader := none }
            else sb, []) := by
  obtain ⟨payload, he⟩ := extract_code_eq hstop
  constructor
  · simp only [Vis.incomingHandler, he, hip]
    have e1 : ¬ STOP_FOLLOW = FOLLOW_REQUEST := by decide
    have e2 : ¬ STOP_FOLLOW = FOLLOW_RESPONSE := by decide
    simp only [e1, e2, if_false, if_true]
    split_ifs <;> rfl
  · simp only [V2V.incomingHandler, he, hip]
    have e1 : ¬ STOP_FOLLOW = FOLLOW_REQUEST := by decide
    have e2 : ¬ STOP_FOLLOW = FOLLOW_RESPONSE := by decide
    simp only [e1, e2, if_false, if_true]
    split_ifs <;> rfl

theorem stopFollow_datagram_resolution_witness :
    ((extract 0 0 "03ec000000".toList).map Prod.fst = some STOP_FOLLOW ∧
      senderIpOf "10.0.0.1:50001".toList = some "10.0.0.1".toList) ∧
    (Vis.incomingHandler emptySer
        { Vis.init "10.0.0.2".toList "7".toList with
            leaderIp := "10.0.0.1".toList, toLeader := some "10.0.0.1".toList,
            followerIp := "10.0.0.3".toList, toFollower := some "10.0.0.3".toList }
        "03ec000000".toList "10.0.0.1:50001".toList 0 0 ⟨0, 0⟩ =
      some ({ Vis.init "10.0.0.2".toList "7".toList with
                followerIp := "10.0.0.3".toList, toFollower := some "10.0.0.3".toList }, []) ∧
     V2V.incomingHandler emptySer
        { V2V.init with
            leaderIp := "10.0.0.3".toList, toLeader := some "10.0.0.3".toList,
            followerIp := "10.0.0.1".toList, toFollower := some "10.0.0.1".toList }
        "03ec000000".toList "10.0.0.1:50001".toList 0 0 =
      some ({ V2V.init with
                leaderIp := "10.0.0.3".toList, toLeader := some "10.0.0.3".toList }, [])) :=
  ⟨by decide,
   (stopFollow_datagram_resolution emptySer
      { Vis.init "10.0.0.2".toList "7".toList with
          leaderIp := "10.0.0.1".toList, toLeader := some "10.0.0.1".toList,
          followerIp := "10.0.0.3".toList, toFollower := some "10.0.0.3".toList }
      V2V.init "03ec000000".toList "10.0.0.1:50001".toList "10.0.0.1".toList 0 0 ⟨0, 0⟩
      (by decide) (by decide)).1,
   (stopFollow_datagram_resolution emptySer (Vis.init [] [])
      { V2V.init with
          leaderIp := "10.0.0.3".toList, toLeader := some "10.0.0.3".toList,
          followerIp := "10.0.0.1".toList, toFollower := some "10.0.0.1".toList }
      "03ec000000".toList "10.0.0.1:50001".toList "10.0.0.1".toList 0 0 ⟨0, 0⟩
      (by decide) (by decide)).2⟩

/-- After `followRequest` to a peer and a FollowRequest from the same peer,
both links have that peer; a StopFollow from it then clears `followerIp` and
keeps `leaderIp`, in either variant. -/
theorem stopFollow_datagram_resolution_fails :
    Vis.run emptySer (Vis.init "10.0.0.2".toList "7".toList)
        [Vis.Event.followRequest "10.0.0.1".toList,
         Vis.Event.incoming "03ea000000".toList "10.0.0.1:50001".toList 0 0 ⟨0, 0⟩,
         Vis.Event.incoming "03ec000000".toList "10.0.0.1:50001".toList 0 0 ⟨0, 0⟩] =
      some ({ Vis.init "10.0.0.2".toList "7".toList with
                leaderIp := "10.0.0.1".toList, toLeader := some "10.0.0.1".toList,
                lastFollowerUpdate := some 0 },
            [Effect.udp "10.0.0.1".toList "03ea000000".toList,
             Effect.udp "10.0.0.1".toList "03eb000000".toList,
             Effect.thread SenderThread.sendLeaderStatuses]) ∧
    V2V.run emptySer V2V.init
        [V2V.Event.followRequest "10.0.0.1".toList,
         V2V.Event.incoming "03ea000000".toList "10.0.0.1:50001".toList 0 0,
         V2V.Event.incoming "03ec000000".toList "10.0.0.1:50001".toList 0 0] =
      some ({ V2V.init with
                leaderIp := "10.0.0.1".toList, toLeader := some "10.0.0.1".toList },
            [Effect.udp "10.0.0.1".toList "03ea000000".toList,
             Effect.udp "10.0.0.1".toList "03eb000000".toList]) := by
  decide

end Handshake

/-! ## Local teardown and the at-most-one-per-role property -/

section Teardown

open Codec

/-- Under the channel-handle invariant `stopFollow` of the control-plane
variant returns, with both peers cleared, after one frame per active link. -/
theorem vis_stopFollow_eq (ser : Msg → Str) (s : Vis.V2VService) (hk : Vis.HandlesOk s) :
    Vis.stopFollow ser s =
      some ({ s with leaderIp := [], followerIp := [],
                     toLeader := if s.leaderIp ≠ [] then none else s.toLeader,
                     toFollower := if s.followerIp ≠ [] then none else s.toFollower },
            (if s.leaderIp ≠ [] then [Effect.udp s.leaderIp (encode 1004 (ser Msg.stopFollow))]
             else []) ++
            (if s.followerIp ≠ [] then [Effect.udp s.followerIp (encode 1004 (ser Msg.stopFollow))]
             else [])) := by
  obtain ⟨hl, hf⟩ := hk
  unfold Vis.stopFollow Vis.stopFollowLeader Vis.stopFollowFollower
  by_cases c1 : s.leaderIp = [] <;> by_cases c2 : s.followerIp = []
  · simp [c1, c2, Outcome.andThen]
    cases s; simp_all
  · simp [c1, c2, hf c2, sendVia, Outcome.andThen, Msg.ID]
  · simp [c1, c2, hl c1, sendVia, Outcome.andThen, Msg.ID]
  · simp [c1, c2, hl c1, hf c2, sendVia, Outcome.andThen, Msg.ID]

/-- C10. Local `stopFollow` in the control-plane variant: in every state the
service can be in, the call returns with both `leaderIp` and `followerIp`
empty (their handles reset when the link was active); the frames sent are, in
order, one encoded StopFollow (type code 1004) to the leader if the outgoing
link was active and one to the follower if the incoming link was active, and
nothing else. -/
theorem stopFollow_tears_down_all (ser : Msg → Str) (s : Vis.V2VService)
    (h : Vis.Reachable ser s) :
    Vis.stopFollow ser s =
      some ({ s with leaderIp := [], followerIp := [],
                     toLeader := if s.leaderIp ≠ [] then none else s.toLeader,
                     toFollower := if s.followerIp ≠ [] then none else s.toFollower },
            (if s.leaderIp ≠ [] then [Effect.udp s.leaderIp (encode 1004 (ser Msg.stopFollow))]
             else []) ++
            (if s.followerIp ≠ [] then [Effect.udp s.followerIp (encode 1004 (ser Msg.stopFollow))]
             else [])) :=
  vis_stopFollow_eq ser s (Vis.reachable_handlesOk ser h)

theorem stopFollow_tears_down_all_witness :
    Vis.Reachable emptySer
      { Vis.init "10.0.0.2".toList "7".toList with
          leaderIp := "10.0.0.1".toList, toLeader := some "10.0.0.1".toList,
          followerIp := "10.0.0.3".toList, toFollower := some "10.0.0.3".toList,
          lastFollowerUpdate := some 0 } ∧
    Vis.stopFollow emptySer
      { Vis.init "10.0.0.2".toList "7".toList with
          leaderIp := "10.0.0.1".toList, toLeader := some "10.0.0.1".toList,
          followerIp := "10.0.0.3".toList, toFollower := some "10.0.0.3".toList,
          lastFollowerUpdate := some 0 } =
      some ({ Vis.init "10.0.0.2".toList "7".toList with lastFollowerUpdate := some 0 },
            [Effect.udp "10.0.0.1".toList "03ec000000".toList,
             Effect.udp "10.0.0.3".toList "03ec000000".toList]) :=
  have hr : Vis.Reachable emptySer
      { Vis.init "10.0.0.2".toList "7".toList with
          leaderIp := "10.0.0.1".toList, toLeader := some "10.0.0.1".toList,
          followerIp := "10.0.0.3".toList, toFollower := some "10.0.0.3".toList,
          lastFollowerUpdate := some 0 } :=
    ⟨"10.0.0.2".toList, "7".toList,
     [Vis.Event.followRequest "10.0.0.1".toList,
      Vis.Event.incoming "03ea000000".toList "10.0.0.3:50001".toList 0 0 ⟨0, 0⟩],
     [Effect.udp "10.0.0.1".toList "03ea000000".toList,
      Effect.udp "10.0.0.3".toList "03eb000000".toList,
      Effect.thread SenderThread.sendLeaderStatuses], by decide⟩
  ⟨hr, (stopFollow_tears_down_all emptySer _ hr).trans (by decide)⟩

theorem vis_step_follow (ser : Msg → Str) (s : Vis.V2VService) (ev : Vis.Event)
    (h : Vis.IsFollowEvent ev) :
    ∃ t o, Vis.step ser s ev = some (t, o) ∧
      (s.leaderIp ≠ [] → t.leaderIp = s.leaderIp) ∧
      (s.followerIp ≠ [] → t.followerIp = s.followerIp) := by
  cases ev with
  | followRequest v =>
    by_cases c : s.leaderIp = []
    · refine ⟨{ s with leaderIp := v, toLeader := some v },
        [Effect.udp v (encode 1002 (ser Msg.followRequest))], ?_, fun n => absurd c n, fun _ => rfl⟩
      simp [Vis.step, Vis.followRequest, c, sendVia, Msg.ID]
    · exact ⟨s, [], by simp [Vis.step, Vis.followRequest, c], fun _ => rfl, fun _ => rfl⟩
  | incoming data sender id0 len0 now =>
    obtain ⟨payload, he⟩ := extract_code_eq h
    obtain ⟨ip, hip⟩ := senderIpOf_isSome sender
    by_cases c : s.followerIp = []
    · by_cases d : ip = []
      · refine ⟨{ s with followerIp := ip, toFollower := some ip,
                         lastFollowerUpdate := some (getTime now.tv_sec now.tv_usec) },
          [Effect.thread SenderThread.sendLeaderStatuses], ?_, fun _ => rfl, fun n => absurd c n⟩
        simp [Vis.step, Vis.incomingHandler, he, hip, c, d, Vis.followResponse,
          Outcome.andThen, Vis.startReportingToFollower]
      · refine ⟨{ s with followerIp := ip, toFollower := some ip,
                         lastFollowerUpdate := some (getTime now.tv_sec now.tv_usec) },
          [Effect.udp ip (encode 1003 (ser Msg.followResponse)),
           Effect.thread SenderThread.sendLeaderStatuses], ?_, fun _ => rfl, fun n => absurd c n⟩
        simp [Vis.step, Vis.incomingHandler, he, hip, c, d, Vis.followResponse, sendVia,
          Outcome.andThen, Vis.startReportingToFollower, Msg.ID]
    · exact ⟨s, [], by simp [Vis.step, Vis.incomingHandler, he, hip, c],
        fun _ => rfl, fun _ => rfl⟩
  | _ => exact absurd h (by simp [Vis.IsFollowEvent])

theorem basic_step_follow (ser : Msg → Str) (s : V2V.V2VService) (ev : V2V.Event)
    (h : V2V.IsFollowEvent ev) :
    ∃ t o, V2V.step ser s ev = some (t, o) ∧
      (s.leaderIp ≠ [] → t.leaderIp = s.leaderIp) ∧
      (s.followerIp ≠ [] → t.followerIp = s.followerIp) := by
  cases ev with
  | followRequest v =>
    by_cases c : s.leaderIp = []
    · refine ⟨{ s with leaderIp := v, toLeader := some v },
        [Effect.udp v (encode 1002 (ser Msg.followRequest))], ?_, fun n => absurd c n, fun _ => rfl⟩
      simp [V2V.step, V2V.followRequest, c, sendVia, Msg.ID]
    · exact ⟨s, [], by simp [V2V.step, V2V.followRequest, c], fun _ => rfl, fun _ => rfl⟩
  | incoming data sender id0 len0 =>
    obtain ⟨payload, he⟩ := extract_code_eq h
    obtain ⟨ip, hip⟩ := senderIpOf_isSome sender
    by_cases c : s.followerIp = []
    · by_cases d : ip = []
      · refine ⟨{ s with followerIp := ip, toFollower := some ip }, [], ?_,
          fun _ => rfl, fun n => absurd c n⟩
        simp [V2V.step, V2V.incomingHandler, he, hip, c, d, V2V.followResponse]
      · refine ⟨{ s with followerIp := ip, toFollower := some ip },
          [Effect.udp ip (encode 1003 (ser Msg.followResponse))], ?_,
          fun _ => rfl, fun n => absurd c n⟩
        simp [V2V.step, V2V.incomingHandler, he, hip, c, d, V2V.followResponse, sendVia, Msg.ID]
    · exact ⟨s, [], by simp [V2V.step, V2V.incomingHandler, he, hip, c],
        fun _ => rfl, fun _ => rfl⟩
  | _ => exact absurd h (by simp [V2V.IsFollowEvent])

theorem vis_run_follow (ser : Msg → Str) (evs : List Vis.Event) :
    ∀ (s : Vis.V2VService), (∀ e ∈ evs, Vis.IsFollowEvent e) →
    ∃ t o, Vis.run ser s evs = some (t, o) ∧
      (s.leaderIp ≠ [] → t.leaderIp = s.leaderIp) ∧
      (s.followerIp ≠ [] → t.followerIp = s.followerIp) := by
  induction evs with
  | nil => intro s _; exact ⟨s, [], rfl, fun _ => rfl, fun _ => rfl⟩
  | cons ev rest ih =>
    intro s h
    obtain ⟨m, o1, e1, l1, f1⟩ := vis_step_follow ser s ev (h ev (by simp))
    obtain ⟨t, o2, e2, l2, f2⟩ := ih m (fun e he => h e (by simp [he]))
    refine ⟨t, o1 ++ o2, by simp [Vis.run, e1, e2, Outcome.andThen], ?_, ?_⟩
    · intro n; rw [l2 (by rw [l1 n]; exact n), l1 n]
    · intro n; rw [f2 (by rw [f1 n]; exact n), f1 n]

theorem basic_run_follow (ser : Msg → Str) (evs : List V2V.Event) :
    ∀ (s : V2V.V2VService), (∀ e ∈ evs, V2V.IsFollowEvent e) →
    ∃ t o, V2V.run ser s evs = some (t, o) ∧
      (s.leaderIp ≠ [] → t.leaderIp = s.leaderIp) ∧
      (s.followerIp ≠ [] → t.followerIp = s.followerIp) := by
  induction evs with
  | nil => intro s _; exact ⟨s, [], rfl, fun _ => rfl, fun _ => rfl⟩
  | cons ev rest ih =>
    intro s h
    obtain ⟨m, o1, e1, l1, f1⟩ := basic_step_follow ser s ev (h ev (by simp))
    obtain ⟨t, o2, e2, l2, f2⟩ := ih m (fun e he => h e (by simp [he]))
    refine ⟨t, o1 ++ o2, by simp [V2V.run, e1, e2, Outcome.andThen], ?_, ?_⟩
    · intro n; rw [l2 (by rw [l1 n]; exact n), l1 n]
    · intro n; rw [f2 (by rw [f1 n]; exact n), f1 n]

theorem Outcome.andThen_assoc {σ : Type} (r : Outcome σ) (f g : σ → Outcome σ) :
    Outcome.andThen (Outcome.andThen r f) g =
      Outcome.andThen r (fun s => Outcome.andThen (f s) g) := by
  cases r with
  | none => rfl
  | some p =>
    obtain ⟨m, o1⟩ := p
    simp only [Outcome.andThen]
    cases f m with
    | none => rfl
    | some q =>
      obtain ⟨m2, o2⟩ := q
      simp only
      cases g m2 with
      | none => rfl
      | some u => obtain ⟨m3, o3⟩ := u; simp

theorem Outcome.andThen_pure {σ : Type} (s : σ) (f : σ → Outcome σ) :
    Outcome.andThen (some (s, [])) f = f s := by
  simp only [Outcome.andThen]
  cases f s with
  | none => rfl
  | some q => obtain ⟨m, o⟩ := q; simp

theorem vis_run_append (ser : Msg → Str) (a b : List Vis.Event) :
    ∀ (s : Vis.V2VService),
      Vis.run ser s (a ++ b) = Outcome.andThen (Vis.run ser s a) (fun t => Vis.run ser t b) := by
  induction a with
  | nil => intro s; simp only [List.nil_append, Vis.run, Outcome.andThen_pure]
  | cons ev rest ih =>
    intro s
    simp only [List.cons_append, Vis.run, Outcome.andThen_assoc]
    congr 1
    funext t
    exact ih t

theorem basic_run_append (ser : Msg → Str) (a b : List V2V.Event) :
    ∀ (s : V2V.V2VService),
      V2V.run ser s (a ++ b) = Outcome.andThen (V2V.run ser s a) (fun t => V2V.run ser t b) := by
  induction a with
  | nil => intro s; simp only [List.nil_append, V2V.run, Outcome.andThen_pure]
  | cons ev rest ih =>
    intro s
    simp only [List.cons_append, V2V.run, Outcome.andThen_assoc]
    congr 1
    funext t
    exact ih t

/-- C5. At-most-one-per-role: run from the state left by the constructor on
any sequence of `followRequest(p)` calls and datagrams read as FollowRequest,
split anywhere into an earlier part and a later part, the service returns from
every event, and a non-empty `leaderIp` (respectively `followerIp`) held after
the earlier part is still the value held after the later part. In particular
`followRequest` called while `leaderIp` is non-empty returns the state
unchanged with no effect. Both variants. -/
theorem at_most_one_per_role (ser : Msg → Str) (ip groupId p : Str)
    (evs1 evs2 : List Vis.Event) (bevs1 bevs2 : List V2V.Event)
    (sv : Vis.V2VService) (sb : V2V.V2VService)
    (h1 : ∀ e ∈ evs1, Vis.IsFollowEvent e) (h2 : ∀ e ∈ evs2, Vis.IsFollowEvent e)
    (hb1 : ∀ e ∈ bevs1, V2V.IsFollowEvent e) (hb2 : ∀ e ∈ bevs2, V2V.IsFollowEvent e)
    (hv : sv.leaderIp ≠ []) (hb : sb.leaderIp ≠ []) :
    (∃ s1 o1 s2 o2,
        Vis.run ser (Vis.init ip groupId) evs1 = some (s1, o1) ∧
        Vis.run ser (Vis.init ip groupId) (evs1 ++ evs2) = some (s2, o1 ++ o2) ∧
        (s1.leaderIp ≠ [] → s2.leaderIp = s1.leaderIp) ∧
        (s1.followerIp ≠ [] → s2.followerIp = s1.followerIp)) ∧
    (∃ s1 o1 s2 o2,
        V2V.run ser V2V.init bevs1 = some (s1, o1) ∧
        V2V.run ser V2V.init (bevs1 ++ bevs2) = some (s2, o1 ++ o2) ∧
        (s1.leaderIp ≠ [] → s2.leaderIp = s1.leaderIp) ∧
        (s1.followerIp ≠ [] → s2.followerIp = s1.followerIp)) ∧
    Vis.followRequest ser sv p = some (sv, []) ∧
    V2V.followRequest ser sb p = some (sb, []) := by
  refine ⟨?_, ?_, ?_, ?_⟩
  · obtain ⟨s1, o1, e1, _, _⟩ := vis_run_follow ser evs1 (Vis.init ip groupId) h1
    obtain ⟨s2, o2, e2, l2, f2⟩ := vis_run_follow ser evs2 s1 h2
    exact ⟨s1, o1, s2, o2, e1, by simp [vis_run_append, e1, e2, Outcome.andThen], l2, f2⟩
  · obtain ⟨s1, o1, e1, _, _⟩ := basic_run_follow ser bevs1 V2V.init hb1
    obtain ⟨s2, o2, e2, l2, f2⟩ := basic_run_follow ser bevs2 s1 hb2
    exact ⟨s1, o1, s2, o2, e1, by simp [basic_run_append, e1, e2, Outcome.andThen], l2, f2⟩
  · simp [Vis.followRequest, hv]
  · simp [V2V.followRequest, hb]

theorem at_most_one_per_role_witness :
    ((∀ e ∈ [Vis.Event.followRequest "10.0.0.1".toList], Vis.IsFollowEvent e) ∧
      (∀ e ∈ [Vis.Event.followRequest "10.0.0.9".toList,
              Vis.Event.incoming "03ea000000".toList "10.0.0.3:50001".toList 0 0 ⟨0, 0⟩],
        Vis.IsFollowEvent e) ∧
      (∀ e ∈ [V2V.Event.incoming "03ea000000".toList "10.0.0.3:50001".toList 0 0],
        V2V.IsFollowEvent e) ∧
      (∀ e ∈ [V2V.Event.incoming "03ea000000".toList "10.0.0.4:50001".toList 0 0,
              V2V.Event.followRequest "10.0.0.1".toList],
        V2V.IsFollowEvent e) ∧
      ({ Vis.init [] [] with leaderIp := "10.0.0.1".toList } : Vis.V2VService).leaderIp ≠ [] ∧
      ({ V2V.init with leaderIp := "10.0.0.1".toList } : V2V.V2VService).leaderIp ≠ []) ∧
    ((∃ s1 o1 s2 o2,
        Vis.run emptySer (Vis.init "10.0.0.2".toList "7".toList)
          [Vis.Event.followRequest "10.0.0.1".toList] = some (s1, o1) ∧
        Vis.run emptySer (Vis.init "10.0.0.2".toList "7".toList)
          ([Vis.Event.followRequest "10.0.0.1".toList] ++
            [Vis.Event.followRequest "10.0.0.9".toList,
             Vis.Event.incoming "03ea000000".toList "10.0.0.3:50001".toList 0 0 ⟨0, 0⟩]) =
          some (s2, o1 ++ o2) ∧
        (s1.leaderIp ≠ [] → s2.leaderIp = s1.leaderIp) ∧
        (s1.followerIp ≠ [] → s2.followerIp = s1.followerIp)) ∧
     (∃ s1 o1 s2 o2,
        V2V.run emptySer V2V.init
          [V2V.Event.incoming "03ea000000".toList "10.0.0.3:50001".toList 0 0] = some (s1, o1) ∧
        V2V.run emptySer V2V.init
          ([V2V.Event.incoming "03ea000000".toList "10.0.0.3:50001".toList 0 0] ++
            [V2V.Event.incoming "03ea000000".toList "10.0.0.4:50001".toList 0 0,
             V2V.Event.followRequest "10.0.0.1".toList]) =
          some (s2, o1 ++ o2) ∧
        (s1.leaderIp ≠ [] → s2.leaderIp = s1.leaderIp) ∧
        (s1.followerIp ≠ [] → s2.followerIp = s1.followerIp)) ∧
     Vis.followRequest emptySer { Vis.init [] [] with leaderIp := "10.0.0.1".toList }
        "10.0.0.9".toList =
       some ({ Vis.init [] [] with leaderIp := "10.0.0.1".toList }, []) ∧
     V2V.followRequest emptySer { V2V.init with leaderIp := "10.0.0.1".toList }
        "10.0.0.9".toList =
       some ({ V2V.init with leaderIp := "10.0.0.1".toList }, [])) :=
  ⟨by decide,
   at_most_one_per_role emptySer "10.0.0.2".toList "7".toList "10.0.0.9".toList
     [Vis.Event.followRequest "10.0.0.1".toList]
     [Vis.Event.followRequest "10.0.0.9".toList,
      Vis.Event.incoming "03ea000000".toList "10.0.0.3:50001".toList 0 0 ⟨0, 0⟩]
     [V2V.Event.incoming "03ea000000".toList "10.0.0.3:50001".toList 0 0]
     [V2V.Event.incoming "03ea000000".toList "10.0.0.4:50001".toList 0 0,
      V2V.Event.followRequest "10.0.0.1".toList]
     { Vis.init [] [] with leaderIp := "10.0.0.1".toList }
     { V2V.init with leaderIp := "10.0.0.1".toList }
     (by decide) (by decide) (by decide) (by decide) (by decide) (by decide)⟩

end Teardown

/-! ## Totality of `extract`, dropped datagrams and presence announcements -/

section Dispatch

open Codec

/-- C18. Totality of `extract`: for every input and whatever the locals hold
beforehand, `extract` returns a pair and no `substr` call is out of range; the
returned string is empty for an input shorter than 10 characters and is the
input without its first 10 characters otherwise. -/
theorem extract_total (id0 len0 : Nat) (data : Str) :
    ∃ code : Int, extract id0 len0 data =
      some (code, if data.length < 10 then [] else data.drop 10) := by
  by_cases h : data.length < 10
  · exact ⟨-1, by simp [extract, h]⟩
  · have h4 : 4 ≤ data.length := by omega
    have h10 : 10 ≤ data.length := by omega
    refine ⟨toInt16 (if data.length - 10 = hexExtract len0 ((data.drop 4).take 10)
        then hexExtract id0 (data.take 4) else UINT_MAX), ?_⟩
    simp [extract, h, substr, h4, h10]

/-- C17. Malformed and unknown datagrams are dropped: when `extract` yields the
error sentinel `-1`, or a type code that is none of FollowRequest,
FollowResponse, StopFollow, FollowerStatus and LeaderStatus, the incoming
handler returns the state unchanged (links, handles and both registry maps)
with no effect at all, so no frame is sent and no thread is started. Both
variants. -/
theorem unknown_datagram_dropped (ser : Msg → Str) (sv : Vis.V2VService)
    (sb : V2V.V2VService) (data sender : Str) (id0 len0 : Nat) (now : Timeval) (c : Int)
    (hx : (extract id0 len0 data).map Prod.fst = some c)
    (hc : c = -1 ∨ (c ≠ FOLLOW_REQUEST ∧ c ≠ FOLLOW_RESPONSE ∧ c ≠ STOP_FOLLOW ∧
                    c ≠ FOLLOWER_STATUS ∧ c ≠ LEADER_STATUS)) :
    Vis.incomingHandler ser sv data sender id0 len0 now = some (sv, []) ∧
    V2V.incomingHandler ser sb data sender id0 len0 = some (sb, []) := by
  obtain ⟨payload, he⟩ := extract_code_eq hx
  obtain ⟨ip, hip⟩ := senderIpOf_isSome sender
  have hn : c ≠ FOLLOW_REQUEST ∧ c ≠ FOLLOW_RESPONSE ∧ c ≠ STOP_FOLLOW := by
    rcases hc with rfl | ⟨h1, h2, h3, _, _⟩
    · decide
    · exact ⟨h1, h2, h3⟩
  constructor
  · simp [Vis.incomingHandler, he, hip, hn.1, hn.2.1, hn.2.2]
  · simp [V2V.incomingHandler, he, hip, hn.1, hn.2.1, hn.2.2]

theorem unknown_datagram_dropped_witness :
    ((extract 0 0 "03ea00000".toList).map Prod.fst = some (-1) ∧
      ((-1 : Int) = -1 ∨ ((-1 : Int) ≠ FOLLOW_REQUEST ∧ (-1 : Int) ≠ FOLLOW_RESPONSE ∧
        (-1 : Int) ≠ STOP_FOLLOW ∧ (-1 : Int) ≠ FOLLOWER_STATUS ∧ (-1 : Int) ≠ LEADER_STATUS))) ∧
    (Vis.incomingHandler emptySer
        { Vis.init "10.0.0.2".toList "7".toList with
            leaderIp := "10.0.0.1".toList, toLeader := some "10.0.0.1".toList }
        "03ea00000".toList "10.0.0.1:50001".toList 0 0 ⟨0, 0⟩ =
      some ({ Vis.init "10.0.0.2".toList "7".toList with
                leaderIp := "10.0.0.1".toList, toLeader := some "10.0.0.1".toList }, []) ∧
     V2V.incomingHandler emptySer
        { V2V.init with leaderIp := "10.0.0.1".toList, toLeader := some "10.0.0.1".toList }
        "03ea00000".toList "10.0.0.1:50001".toList 0 0 =
      some ({ V2V.init with
                leaderIp := "10.0.0.1".toList, toLeader := some "10.0.0.1".toList }, [])) :=
  ⟨by decide,
   unknown_datagram_dropped emptySer _ _ "03ea00000".toList "10.0.0.1:50001".toList
     0 0 ⟨0, 0⟩ (-1) (by decide) (by decide)⟩

/-- C20. Presence announcement guard: in the basic variant `announcePresence`
publishes one AnnouncePresence with the local address and group on the
broadcast channel when `followerIp` is empty and nothing otherwise; in the
control-plane variant it publishes one AnnouncePresence with `myIp` and
`myGroupId` in every state. Both return the state unchanged. -/
theorem announcePresence_guard (CAR_IP GROUP_ID : Str) (sv : Vis.V2VService)
    (sb : V2V.V2VService) :
    V2V.announcePresence CAR_IP GROUP_ID sb =
      some (sb, if sb.followerIp = [] then
                  [Effect.od4 Channel.broadcast (OD4Msg.announcePresence CAR_IP GROUP_ID)]
                else []) ∧
    Vis.announcePresence sv =
      some (sv, [Effect.od4 Channel.broadcast (OD4Msg.announcePresence sv.myIp sv.myGroupId)]) := by
  constructor
  · unfold V2V.announcePresence
    by_cases h : sb.followerIp = [] <;> simp [h]
  · rfl

/-- C14. Self-announcement filtering in the control-plane variant: an
announcement whose group id equals `myGroupId`, whatever its address, is
forwarded to the visualisation channel and leaves the state unchanged, both
registry maps included. -/
theorem self_announcement_filtered (s : Vis.V2VService) (vehicleIp : Str) :
    Vis.broadcastHandler s (OD4Msg.announcePresence vehicleIp s.myGroupId) =
      some (s, [Effect.od4 Channel.visualisation
                  (OD4Msg.announcePresence vehicleIp s.myGroupId)]) := by
  simp [Vis.broadcastHandler]

end Dispatch

/-! ## Idempotent stop and emergency brake -/

section Stop

open Codec

/-- C11. Idempotent stop: in both variants `stopFollow` called with `leaderIp`
and `followerIp` both empty returns the state unchanged with no effect, so no
frame is sent. Consequently, in every state the control-plane service can be
in, `stopFollow` returns and a second `stopFollow` right after it returns the
same state again with no effect. -/
theorem stopFollow_idempotent (ser : Msg → Str) (sv r : Vis.V2VService) (sb : V2V.V2VService)
    (hv1 : sv.leaderIp = []) (hv2 : sv.followerIp = [])
    (hb1 : sb.leaderIp = []) (hb2 : sb.followerIp = [])
    (hr : Vis.Reachable ser r) :
    Vis.stopFollow ser sv = some (sv, []) ∧
    V2V.stopFollow ser sb = some (sb, []) ∧
    ∃ t o, Vis.stopFollow ser r = some (t, o) ∧ Vis.stopFollow ser t = some (t, []) := by
  have noop : ∀ u : Vis.V2VService, u.leaderIp = [] → u.followerIp = [] →
      Vis.stopFollow ser u = some (u, []) := by
    intro u h1 h2
    simp [Vis.stopFollow, Vis.stopFollowLeader, Vis.stopFollowFollower, h1, h2, Outcome.andThen]
  refine ⟨noop sv hv1 hv2, ?_, ?_⟩
  · simp [V2V.stopFollow, hb1, hb2]
  · exact ⟨_, _, vis_stopFollow_eq ser r (Vis.reachable_handlesOk ser hr), noop _ rfl rfl⟩

theorem stopFollow_idempotent_witness :
    ((Vis.init "10.0.0.2".toList "7".toList).leaderIp = [] ∧
      (Vis.init "10.0.0.2".toList "7".toList).followerIp = [] ∧
      V2V.init.leaderIp = [] ∧ V2V.init.followerIp = [] ∧
      Vis.Reachable emptySer
        { Vis.init "10.0.0.2".toList "7".toList with
            leaderIp := "10.0.0.1".toList, toLeader := some "10.0.0.1".toList }) ∧
    (Vis.stopFollow emptySer (Vis.init "10.0.0.2".toList "7".toList) =
        some (Vis.init "10.0.0.2".toList "7".toList, []) ∧
     V2V.stopFollow emptySer V2V.init = some (V2V.init, []) ∧
     ∃ t o, Vis.stopFollow emptySer
          { Vis.init "10.0.0.2".toList "7".toList with
              leaderIp := "10.0.0.1".toList, toLeader := some "10.0.0.1".toList } = some (t, o) ∧
        Vis.stopFollow emptySer t = some (t, [])) :=
  have hr : Vis.Reachable emptySer
      { Vis.init "10.0.0.2".toList "7".toList with
          leaderIp := "10.0.0.1".toList, toLeader := some "10.0.0.1".toList } :=
    ⟨"10.0.0.2".toList, "7".toList, [Vis.Event.followRequest "10.0.0.1".toList],
     [Effect.udp "10.0.0.1".toList "03ea000000".toList], by decide⟩
  ⟨⟨by decide, by decide, by decide, by decide, hr⟩,
   stopFollow_idempotent emptySer (Vis.init "10.0.0.2".toList "7".toList) _ V2V.init
     (by decide) (by decide) (by decide) (by decide) hr⟩

/-- C12. Emergency brake: in every state the control-plane service can be in,
the handler of an InternalEmergencyBrake forwards the command to the
visualisation channel, runs `stopFollow` (one StopFollow frame per active
link), and then publishes on the motor channel exactly a pedal position of 0
followed by a ground steering of 0; afterwards `leaderIp` and `followerIp` are
both empty, whichever links were active. -/
theorem emergency_brake (ser : Msg → Str) (s : Vis.V2VService) (h : Vis.Reachable ser s) :
    Vis.internalBroadCastHandler ser s OD4Msg.internalEmergencyBrake =
      some ({ s with leaderIp := [], followerIp := [],
                     toLeader := if s.leaderIp ≠ [] then none else s.toLeader,
                     toFollower := if s.followerIp ≠ [] then none else s.toFollower },
            [Effect.od4 Channel.visualisation OD4Msg.internalEmergencyBrake] ++
            ((if s.leaderIp ≠ [] then [Effect.udp s.leaderIp (encode 1004 (ser Msg.stopFollow))]
              else []) ++
             (if s.followerIp ≠ [] then
                [Effect.udp s.followerIp (encode 1004 (ser Msg.stopFollow))]
              else [])) ++
            [Effect.od4 Channel.motorBroadcast (OD4Msg.pedalPositionReading 0),
             Effect.od4 Channel.motorBroadcast (OD4Msg.groundSteeringReading 0)]) := by
  have e := vis_stopFollow_eq ser s (Vis.reachable_handlesOk ser h)
  simp only [Vis.internalBroadCastHandler, Outcome.andThen, e]

theorem emergency_brake_witness :
    Vis.Reachable emptySer
      { Vis.init "10.0.0.2".toList "7".toList with
          leaderIp := "10.0.0.1".toList, toLeader := some "10.0.0.1".toList,
          followerIp := "10.0.0.3".toList, toFollower := some "10.0.0.3".toList,
          lastFollowerUpdate := some 0 } ∧
    Vis.internalBroadCastHandler emptySer
      { Vis.init "10.0.0.2".toList "7".toList with
          leaderIp := "10.0.0.1".toList, toLeader := some "10.0.0.1".toList,
          followerIp := "10.0.0.3".toList, toFollower := some "10.0.0.3".toList,
          lastFollowerUpdate := some 0 } OD4Msg.internalEmergencyBrake =
      some ({ Vis.init "10.0.0.2".toList "7".toList with lastFollowerUpdate := some 0 },
            [Effect.od4 Channel.visualisation OD4Msg.internalEmergencyBrake,
             Effect.udp "10.0.0.1".toList "03ec000000".toList,
             Effect.udp "10.0.0.3".toList "03ec000000".toList,
             Effect.od4 Channel.motorBroadcast (OD4Msg.pedalPositionReading 0),
             Effect.od4 Channel.motorBroadcast (OD4Msg.groundSteeringReading 0)]) :=
  have hr : Vis.Reachable emptySer
      { Vis.init "10.0.0.2".toList "7".toList with
          leaderIp := "10.0.0.1".toList, toLeader := some "10.0.0.1".toList,
          followerIp := "10.0.0.3".toList, toFollower := some "10.0.0.3".toList,
          lastFollowerUpdate := some 0 } :=
    ⟨"10.0.0.2".toList, "7".toList,
     [Vis.Event.followRequest "10.0.0.1".toList,
      Vis.Event.incoming "03ea000000".toList "10.0.0.3:50001".toList 0 0 ⟨0, 0⟩],
     [Effect.udp "10.0.0.1".toList "03ea000000".toList,
      Effect.udp "10.0.0.3".toList "03eb000000".toList,
      Effect.thread SenderThread.sendLeaderStatuses], by decide⟩
  ⟨hr, (emergency_brake emptySer _ hr).trans (by decide)⟩

end Stop

/-! ## Every step returns in a state that satisfies the handle invariant -/

section Totality

open Codec

theorem extract_eq (id0 len0 : Nat) (data : Str) :
    extract id0 len0 data =
      some (if data.length < 10 then -1
            else toInt16 (if data.length - 10 = hexExtract len0 ((data.drop 4).take 10)
                          then hexExtract id0 (data.take 4) else UINT_MAX),
            if data.length < 10 then [] else data.drop 10) := by
  by_cases h : data.length < 10
  · simp [extract, h]
  · have h4 : 4 ≤ data.length := by omega
    have h10 : 10 ≤ data.length := by omega
    simp [extract, h, substr, h4, h10]

theorem Outcome.exists_of_isSome {σ : Type} {r : Outcome σ} (h : r.isSome = true) :
    ∃ t o, r = some (t, o) := by
  cases r with
  | none => simp at h
  | some p => exact ⟨p.1, p.2, rfl⟩

namespace Vis

variable (ser : Msg → Str)

theorem followRequest_returns (s : V2VService) (v : Str) :
    ∃ t o, followRequest ser s v = some (t, o) := by
  by_cases c : s.leaderIp = []
  · exact ⟨{ s with leaderIp := v, toLeader := some v },
      [Effect.udp v (encode 1002 (ser Msg.followRequest))],
      by simp [followRequest, c, sendVia, Msg.ID]⟩
  · exact ⟨s, [], by simp [followRequest, c]⟩

theorem followResponse_returns (s : V2VService) (h : HandlesOk s) :
    ∃ o, followResponse ser s = some (s, o) := by
  by_cases c : s.followerIp = []
  · exact ⟨[], by simp [followResponse, c]⟩
  · exact ⟨[Effect.udp s.followerIp (encode 1003 (ser Msg.followResponse))],
      by simp [followResponse, c, h.2 c, sendVia, Msg.ID]⟩

theorem followerStatus_returns (s : V2VService) (h : HandlesOk s) :
    ∃ o, followerStatus ser s = some (s, o) := by
  by_cases c : s.leaderIp = []
  · exact ⟨[], by simp [followerStatus, c]⟩
  · exact ⟨[Effect.udp s.leaderIp (encode 3001 (ser (Msg.followerStatus 0 0 0 0 0)))],
      by simp [followerStatus, c, h.1 c, sendVia, Msg.ID]⟩

theorem leaderStatus_returns (s : V2VService) (h : HandlesOk s) (a b c : Reading)
    (now : Timeval) : ∃ o, leaderStatus ser s a b c now = some (s, o) := by
  by_cases d : s.followerIp = []
  · exact ⟨[], by simp [leaderStatus, d]⟩
  · exact ⟨[Effect.udp s.followerIp
        (encode 2001 (ser (Msg.leaderStatus (getTime now.tv_sec now.tv_usec) a b c)))],
      by simp [leaderStatus, d, h.2 d, sendVia, Msg.ID]⟩

theorem incomingHandler_returns (s : V2VService) (h : HandlesOk s) (data sender : Str)
    (id0 len0 : Nat) (now : Timeval) :
    ∃ t o, incomingHandler ser s data sender id0 len0 now = some (t, o) := by
  obtain ⟨ip, hip⟩ := senderIpOf_isSome sender
  have he := extract_eq id0 len0 data
  apply Outcome.exists_of_isSome
  unfold incomingHandler
  rw [he, hip]
  simp only
  split_ifs
  all_goals first
    | rfl
    | (have hk : HandlesOk { s with followerIp := ip, toFollower := some ip } :=
        ⟨h.1, fun _ => rfl⟩
       obtain ⟨o, e⟩ := followResponse_returns ser _ hk
       rw [e]
       rfl)

theorem internalBroadCastHandler_returns (s : V2VService) (h : HandlesOk s) (env : OD4Msg) :
    ∃ t o, internalBroadCastHandler ser s env = some (t, o) := by
  have hs := vis_stopFollow_eq ser s h
  apply Outcome.exists_of_isSome
  cases env with
  | internalFollowRequest g =>
    obtain ⟨t, o, e⟩ := followRequest_returns ser
      { s with mapOfIps := (s.mapOfIps.index g).2 } (s.mapOfIps.index g).1
    by_cases c : s.leaderIp = []
    · simp only [internalBroadCastHandler, Outcome.andThen, c, if_true, e]
      rfl
    · simp only [internalBroadCastHandler, Outcome.andThen, c, if_false]
      rfl
  | internalStopFollow g =>
    simp only [internalBroadCastHandler, Outcome.andThen, hs]
    rfl
  | internalEmergencyBrake =>
    simp only [internalBroadCastHandler, Outcome.andThen, hs]
    rfl
  | _ => rfl

theorem step_returns (s : V2VService) (h : HandlesOk s) (ev : Event) :
    ∃ t o, step ser s ev = some (t, o) := by
  cases ev with
  | broadcast env =>
    cases env <;> exact ⟨_, _, rfl⟩
  | internalBroadCast env => exact internalBroadCastHandler_returns ser s h env
  | motorBroadcast env =>
    cases env <;> exact ⟨_, _, rfl⟩
  | incoming data sender id0 len0 now =>
    exact incomingHandler_returns ser s h data sender id0 len0 now
  | announcePresence => exact ⟨_, _, rfl⟩
  | followRequest v => exact followRequest_returns ser s v
  | followResponse =>
    obtain ⟨o, e⟩ := followResponse_returns ser s h
    exact ⟨s, o, e⟩
  | stopFollow => exact ⟨_, _, vis_stopFollow_eq ser s h⟩
  | followerStatus =>
    obtain ⟨o, e⟩ := followerStatus_returns ser s h
    exact ⟨s, o, e⟩
  | leaderStatus a b c now =>
    obtain ⟨o, e⟩ := leaderStatus_returns ser s h a b c now
    exact ⟨s, o, e⟩
  | setCurrentCarStatus c => exact ⟨_, _, rfl⟩
  | sendFollowerStatusesIter =>
    obtain ⟨o, e⟩ := followerStatus_returns ser s h
    by_cases c : s.leaderIp = []
    · exact ⟨s, [], by simp [step, sendFollowerStatusesIter, c]⟩
    · exact ⟨s, o, by simp [step, sendFollowerStatusesIter, c, e]⟩
  | sendLeaderStatusesIter now =>
    obtain ⟨o, e⟩ := leaderStatus_returns ser s h s.currentCarStatus.speed
      s.currentCarStatus.steeringAngle s.currentCarStatus.distanceTraveled now
    by_cases c : s.followerIp = []
    · exact ⟨s, [], by simp [step, sendLeaderStatusesIter, c]⟩
    · exact ⟨s, o, by simp [step, sendLeaderStatusesIter, c, e]⟩

end Vis

end Totality

/-! ## Telemetry after teardown -/

section Telemetry

open Codec

namespace Vis

variable (ser : Msg → Str)

theorem followRequest_followerIp {s t : V2VService} {v : Str} {o : List Effect}
    (e : followRequest ser s v = some (t, o)) : t.followerIp = s.followerIp := by
  unfold followRequest at e
  split_ifs at e with hl
  · simp at e; obtain ⟨rfl, _⟩ := e; rfl
  · simp [sendVia] at e; obtain ⟨rfl, _⟩ := e; rfl

theorem stopFollow_followerIp {s t : V2VService} {o : List Effect}
    (e : stopFollow ser s = some (t, o)) : t.followerIp = [] := by
  unfold stopFollow at e
  obtain ⟨m, o1, o2, _, e2, _⟩ := Outcome.andThen_eq_some e
  unfold stopFollowFollower at e2
  split_ifs at e2 with hl
  · split at e2
    · simp at e2
    · simp at e2; obtain ⟨rfl, _⟩ := e2; rfl
  · simp at e2; obtain ⟨rfl, _⟩ := e2; simpa using hl

theorem step_followerIp_empty {s t : V2VService} {ev : Event} {o : List Effect}
    (hn : ¬ IsInboundFollowRequest ev) (hf : s.followerIp = [])
    (e : step ser s ev = some (t, o)) : t.followerIp = [] := by
  cases ev with
  | broadcast env =>
    simp only [step, broadcastHandler] at e
    split at e
    · simp only [Option.some.injEq, Prod.mk.injEq] at e
      obtain ⟨rfl, _⟩ := e
      split_ifs <;> exact hf
    · simp at e; obtain ⟨rfl, _⟩ := e; exact hf
  | internalBroadCast env =>
    simp only [step, internalBroadCastHandler] at e
    split at e
    · obtain ⟨m, o1, o2, e1, e2, _⟩ := Outcome.andThen_eq_some e
      simp [announcePresence] at e1
      simp at e2
      obtain ⟨rfl, _⟩ := e1
      obtain ⟨rfl, _⟩ := e2
      exact hf
    · obtain ⟨m, o1, o2, e1, e2, _⟩ := Outcome.andThen_eq_some e
      simp at e1
      obtain ⟨rfl, _⟩ := e1
      split_ifs at e2 with hl
      · rw [followRequest_followerIp ser e2]; exact hf
      · simp at e2; obtain ⟨rfl, _⟩ := e2; exact hf
    · obtain ⟨m, o1, o2, e1, e2, _⟩ := Outcome.andThen_eq_some e
      obtain ⟨m2, o3, o4, e3, e4, _⟩ := Outcome.andThen_eq_some e1
      simp at e3
      obtain ⟨rfl, _⟩ := e3
      simp at e2
      obtain ⟨rfl, _⟩ := e2
      exact stopFollow_followerIp ser e4
    · simp at e; obtain ⟨rfl, _⟩ := e; exact hf
    · obtain ⟨m, o1, o2, e1, e2, _⟩ := Outcome.andThen_eq_some e
      obtain ⟨m2, o3, o4, e3, e4, _⟩ := Outcome.andThen_eq_some e1
      simp at e3
      obtain ⟨rfl, _⟩ := e3
      simp at e2
      obtain ⟨rfl, _⟩ := e2
      exact stopFollow_followerIp ser e4
    · simp at e; obtain ⟨rfl, _⟩ := e; exact hf
  | motorBroadcast env =>
    simp only [step, motorBroadcastHandler] at e
    split at e <;> (simp at e; obtain ⟨rfl, _⟩ := e; exact hf)
  | incoming data sender id0 len0 now =>
    simp only [step, incomingHandler] at e
    split at e
    · rename_i msg senderIp hx _
      have hcode : msg.1 ≠ FOLLOW_REQUEST := by
        intro hc
        apply hn
        simp [IsInboundFollowRequest, hx, hc]
      rw [if_neg hcode] at e
      split_ifs at e with c2 c3 c4 c5 c6 c7
      · obtain ⟨m, o1, o2, e1, e2, _⟩ := Outcome.andThen_eq_some e
        simp [startReportingToLeader] at e1
        obtain ⟨rfl, _⟩ := e1
        simp at e2
        obtain ⟨rfl, _⟩ := e2
        exact hf
      all_goals first
        | (simp at e; obtain ⟨rfl, _⟩ := e; exact hf)
        | (simp at e; obtain ⟨rfl, _⟩ := e; rfl)
    · simp at e
  | announcePresence =>
    simp [step, announcePresence] at e; obtain ⟨rfl, _⟩ := e; exact hf
  | followRequest v => rw [followRequest_followerIp ser e]; exact hf
  | followResponse => rw [followResponse_state ser e]; exact hf
  | stopFollow => exact stopFollow_followerIp ser e
  | followerStatus => rw [followerStatus_state ser e]; exact hf
  | leaderStatus a b c now => rw [leaderStatus_state ser e]; exact hf
  | setCurrentCarStatus c =>
    simp [step, setCurrentCarStatus] at e; obtain ⟨rfl, _⟩ := e; exact hf
  | sendFollowerStatusesIter =>
    simp only [step, sendFollowerStatusesIter] at e
    split_ifs at e
    · rw [followerStatus_state ser e]; exact hf
    · simp at e; obtain ⟨rfl, _⟩ := e; exact hf
  | sendLeaderStatusesIter now =>
    simp only [step, sendLeaderStatusesIter] at e
    split_ifs at e
    · rw [leaderStatus_state ser e]; exact hf
    · simp at e; obtain ⟨rfl, _⟩ := e; exact hf

theorem run_returns (evs : List Event) : ∀ (s : V2VService), HandlesOk s →
    ∃ t o, run ser s evs = some (t, o) := by
  induction evs with
  | nil => intro s _; exact ⟨s, [], rfl⟩
  | cons ev rest ih =>
    intro s h
    obtain ⟨m, o1, e1⟩ := step_returns ser s h ev
    obtain ⟨t, o2, e2⟩ := ih m (step_handlesOk ser h e1)
    exact ⟨t, o1 ++ o2, by simp [run, e1, e2, Outcome.andThen]⟩

theorem run_followerIp_empty (evs : List Event) : ∀ (s : V2VService),
    HandlesOk s → s.followerIp = [] → (∀ e ∈ evs, ¬ IsInboundFollowRequest e) →
    ∃ t o, run ser s evs = some (t, o) ∧ t.followerIp = [] := by
  induction evs with
  | nil => intro s _ hf _; exact ⟨s, [], rfl, hf⟩
  | cons ev rest ih =>
    intro s h hf hn
    obtain ⟨m, o1, e1⟩ := step_returns ser s h ev
    have hm := step_followerIp_empty ser (hn ev (by simp)) hf e1
    obtain ⟨t, o2, e2, ht⟩ := ih m (step_handlesOk ser h e1) hm
      (fun e he => hn e (by simp [he]))
    exact ⟨t, o1 ++ o2, by simp [run, e1, e2, Outcome.andThen], ht⟩

end Vis

/-- C19. Teardown stops leader telemetry (control-plane variant): from a state
the service can be in whose incoming link has the peer `F`, let a
datagram read as a StopFollow from `F` be processed, followed by any events
none of which is a datagram read as a FollowRequest. Every event returns, and
in the state reached `followerIp` is empty, so the loop condition of
`sendLeaderStatuses` is false and both `leaderStatus` and one iteration of the
thread send nothing. Symmetrically, with `leaderIp` empty `followerStatus` and
one iteration of `sendFollowerStatuses` send nothing. -/
theorem teardown_stops_leader_telemetry (ser : Msg → Str) (s w : Vis.V2VService)
    (data sender F : Str) (id0 len0 : Nat) (now : Timeval) (evs : List Vis.Event)
    (hr : Vis.Reachable ser s) (hF : s.followerIp = F)
    (hstop : (extract id0 len0 data).map Prod.fst = some STOP_FOLLOW)
    (hip : senderIpOf sender = some F)
    (hevs : ∀ e ∈ evs, ¬ Vis.IsInboundFollowRequest e) (hw : w.leaderIp = []) :
    (∃ u o, Vis.run ser s (Vis.Event.incoming data sender id0 len0 now :: evs) = some (u, o) ∧
       u.followerIp = [] ∧
       (∀ (a b c : Reading) (later : Timeval), Vis.leaderStatus ser u a b c later = some (u, [])) ∧
       (∀ later : Timeval, Vis.sendLeaderStatusesIter ser u later = some (u, []))) ∧
    Vis.followerStatus ser w = some (w, []) ∧
    Vis.sendFollowerStatusesIter ser w = some (w, []) := by
  have hk := Vis.reachable_handlesOk ser hr
  obtain ⟨payload, he⟩ := extract_code_eq hstop
  have e1 : ¬ STOP_FOLLOW = FOLLOW_REQUEST := by decide
  have e2 : ¬ STOP_FOLLOW = FOLLOW_RESPONSE := by decide
  have hstep : Vis.step ser s (Vis.Event.incoming data sender id0 len0 now) =
      some ({ s with followerIp := [], toFollower := none }, []) := by
    simp only [Vis.step, Vis.incomingHandler, he, hip, e1, e2, if_false, if_true, hF]
  have hk2 : Vis.HandlesOk { s with followerIp := [], toFollower := none } :=
    ⟨hk.1, fun c => absurd rfl c⟩
  obtain ⟨u, o, hrun, hu⟩ := Vis.run_followerIp_empty ser evs _ hk2 rfl hevs
  refine ⟨⟨u, o, ?_, hu, ?_, ?_⟩, ?_, ?_⟩
  · simp [Vis.run, hstep, hrun, Outcome.andThen]
  · intro a b c later
    simp [Vis.leaderStatus, hu]
  · intro later
    simp [Vis.sendLeaderStatusesIter, hu]
  · simp [Vis.followerStatus, hw]
  · simp [Vis.sendFollowerStatusesIter, hw]

theorem teardown_stops_leader_telemetry_witness :
    (Vis.Reachable emptySer
        { Vis.init "10.0.0.2".toList "7".toList with
            followerIp := "10.0.0.3".toList, toFollower := some "10.0.0.3".toList,
            lastFollowerUpdate := some 0 } ∧
      ({ Vis.init "10.0.0.2".toList "7".toList with
            followerIp := "10.0.0.3".toList, toFollower := some "10.0.0.3".toList,
            lastFollowerUpdate := some 0 } : Vis.V2VService).followerIp = "10.0.0.3".toList ∧
      (extract 0 0 "03ec000000".toList).map Prod.fst = some STOP_FOLLOW ∧
      senderIpOf "10.0.0.3:50001".toList = some "10.0.0.3".toList ∧
      (∀ e ∈ [Vis.Event.sendLeaderStatusesIter ⟨1, 500000⟩,
              Vis.Event.followRequest "10.0.0.1".toList,
              Vis.Event.leaderStatus 3 4 5 ⟨2, 0⟩],
        ¬ Vis.IsInboundFollowRequest e) ∧
      (Vis.init "10.0.0.2".toList "7".toList).leaderIp = []) ∧
    ((∃ u o, Vis.run emptySer
          { Vis.init "10.0.0.2".toList "7".toList with
              followerIp := "10.0.0.3".toList, toFollower := some "10.0.0.3".toList,
              lastFollowerUpdate := some 0 }
          (Vis.Event.incoming "03ec000000".toList "10.0.0.3:50001".toList 0 0 ⟨1, 0⟩ ::
            [Vis.Event.sendLeaderStatusesIter ⟨1, 500000⟩,
             Vis.Event.followRequest "10.0.0.1".toList,
             Vis.Event.leaderStatus 3 4 5 ⟨2, 0⟩]) = some (u, o) ∧
        u.followerIp = [] ∧
        (∀ (a b c : Reading) (later : Timeval),
          Vis.leaderStatus emptySer u a b c later = some (u, [])) ∧
        (∀ later : Timeval, Vis.sendLeaderStatusesIter emptySer u later = some (u, []))) ∧
     Vis.followerStatus emptySer (Vis.init "10.0.0.2".toList "7".toList) =
       some (Vis.init "10.0.0.2".toList "7".toList, []) ∧
     Vis.sendFollowerStatusesIter emptySer (Vis.init "10.0.0.2".toList "7".toList) =
       some (Vis.init "10.0.0.2".toList "7".toList, [])) :=
  have hr : Vis.Reachable emptySer
      { Vis.init "10.0.0.2".toList "7".toList with
          followerIp := "10.0.0.3".toList, toFollower := some "10.0.0.3".toList,
          lastFollowerUpdate := some 0 } :=
    ⟨"10.0.0.2".toList, "7".toList,
     [Vis.Event.incoming "03ea000000".toList "10.0.0.3:50001".toList 0 0 ⟨0, 0⟩],
     [Effect.udp "10.0.0.3".toList "03eb000000".toList,
      Effect.thread SenderThread.sendLeaderStatuses], by decide⟩
  ⟨⟨hr, by decide, by decide, by decide, by decide, by decide⟩,
   teardown_stops_leader_telemetry emptySer _ (Vis.init "10.0.0.2".toList "7".toList)
     "03ec000000".toList "10.0.0.3:50001".toList "10.0.0.3".toList 0 0 ⟨1, 0⟩
     [Vis.Event.sendLeaderStatusesIter ⟨1, 500000⟩,
      Vis.Event.followRequest "10.0.0.1".toList,
      Vis.Event.leaderStatus 3 4 5 ⟨2, 0⟩]
     hr (by decide) (by decide) (by decide) (by decide) (by decide)⟩

end Telemetry

/-! ## Peer registry and sender threads on concrete runs -/

section Registry

open Codec

/-- C13. Two announcements of group `8`, first from `10.0.0.8` and then from
`10.0.0.9`, received by a vehicle of group `7`: the reverse registry maps both
addresses to `8`, while the forward registry still maps `8` to the first
address `10.0.0.8` and not to the announced `10.0.0.9`. -/
theorem announcement_keeps_first_ip :
    Vis.run emptySer (Vis.init "10.0.0.2".toList "7".toList)
        [Vis.Event.broadcast (OD4Msg.announcePresence "10.0.0.8".toList "8".toList),
         Vis.Event.broadcast (OD4Msg.announcePresence "10.0.0.9".toList "8".toList)] =
      some ({ Vis.init "10.0.0.2".toList "7".toList with
                mapOfIps := [("8".toList, "10.0.0.8".toList)],
                mapOfIds := [("10.0.0.8".toList, "8".toList), ("10.0.0.9".toList, "8".toList)] },
            [Effect.od4 Channel.visualisation
               (OD4Msg.announcePresence "10.0.0.8".toList "8".toList),
             Effect.od4 Channel.visualisation
               (OD4Msg.announcePresence "10.0.0.9".toList "8".toList)]) ∧
    List.lookup "8".toList [("8".toList, "10.0.0.8".toList)] = some "10.0.0.8".toList ∧
    List.lookup "10.0.0.9".toList
        [("10.0.0.8".toList, "8".toList), ("10.0.0.9".toList, "8".toList)] =
      some "8".toList := by
  decide

/-- C15. In the state left by the constructor, an InternalFollowRequest for
the unregistered group `9` adds the key `9` with an empty address to the
forward registry, and a FollowResponse datagram from the unknown sender
`10.0.0.1` adds the key `10.0.0.1` with an empty group to the reverse
registry. The empty forward entry also survives a later announcement of
group `9` from `10.0.0.9`. -/
theorem registry_lookup_inserts_key :
    Vis.internalBroadCastHandler emptySer (Vis.init "10.0.0.2".toList "7".toList)
        (OD4Msg.internalFollowRequest "9".toList) =
      some ({ Vis.init "10.0.0.2".toList "7".toList with
                mapOfIps := [("9".toList, [])], toLeader := some [] },
            [Effect.od4 Channel.visualisation (OD4Msg.internalFollowRequest "9".toList),
             Effect.udp [] "03ea000000".toList]) ∧
    Vis.incomingHandler emptySer (Vis.init "10.0.0.2".toList "7".toList)
        "03eb000000".toList "10.0.0.1:50001".toList 0 0 ⟨0, 0⟩ =
      some ({ Vis.init "10.0.0.2".toList "7".toList with
                mapOfIds := [("10.0.0.1".toList, [])], lastLeaderUpdate := some 0 },
            [Effect.thread SenderThread.sendFollowerStatuses,
             Effect.od4 Channel.internalBroadCast (OD4Msg.internalFollowResponse [] 1)]) ∧
    Vis.run emptySer (Vis.init "10.0.0.2".toList "7".toList)
        [Vis.Event.internalBroadCast (OD4Msg.internalFollowRequest "9".toList),
         Vis.Event.broadcast (OD4Msg.announcePresence "10.0.0.9".toList "9".toList)] =
      some ({ Vis.init "10.0.0.2".toList "7".toList with
                mapOfIps := [("9".toList, [])],
                mapOfIds := [("10.0.0.9".toList, "9".toList)], toLeader := some [] },
            [Effect.od4 Channel.visualisation (OD4Msg.internalFollowRequest "9".toList),
             Effect.udp [] "03ea000000".toList,
             Effect.od4 Channel.visualisation
               (OD4Msg.announcePresence "10.0.0.9".toList "9".toList)]) := by
  decide

/-- C16. After `followRequest` to `10.0.0.1`, two FollowResponse datagrams from
that peer start two `sendFollowerStatuses` threads while `leaderIp` stays
non-empty, so two follower-telemetry threads are live; and a FollowResponse
datagram received in the state left by the constructor, with no outgoing
link, starts such a thread as well. -/
theorem followResponse_starts_thread_each_time :
    Vis.runLive emptySer (Vis.init "10.0.0.2".toList "7".toList) ⟨0, 0⟩
        [Vis.Event.followRequest "10.0.0.1".toList,
         Vis.Event.incoming "03eb000000".toList "10.0.0.1:50001".toList 0 0 ⟨0, 0⟩,
         Vis.Event.incoming "03eb000000".toList "10.0.0.1:50001".toList 0 0 ⟨0, 0⟩] =
      some ({ Vis.init "10.0.0.2".toList "7".toList with
                leaderIp := "10.0.0.1".toList, toLeader := some "10.0.0.1".toList,
                mapOfIds := [("10.0.0.1".toList, [])], lastLeaderUpdate := some 0 },
            ⟨2, 0⟩) ∧
    (Vis.init "10.0.0.2".toList "7".toList).leaderIp = [] ∧
    Vis.incomingHandler emptySer (Vis.init "10.0.0.2".toList "7".toList)
        "03eb000000".toList "10.0.0.9:50001".toList 0 0 ⟨0, 0⟩ =
      some ({ Vis.init "10.0.0.2".toList "7".toList with
                mapOfIds := [("10.0.0.9".toList, [])], lastLeaderUpdate := some 0 },
            [Effect.thread SenderThread.sendFollowerStatuses,
             Effect.od4 Channel.internalBroadCast (OD4Msg.internalFollowResponse [] 1)]) := by
  decide

end Registry

/-! ## The handle invariant in the basic variant -/

section BasicInvariant

open Codec

namespace V2V

variable (ser : Msg → Str)

theorem basic_followRequest_handlesOk {s t : V2VService} {v : Str} {o : List Effect}
    (h : HandlesOk s) (e : followRequest ser s v = some (t, o)) : HandlesOk t := by
  unfold followRequest at e
  split_ifs at e with hl
  · simp at e; obtain ⟨rfl, _⟩ := e; exact h
  · simp [sendVia] at e; obtain ⟨rfl, _⟩ := e; exact ⟨fun _ => rfl, h.2⟩

theorem basic_followResponse_state {s t : V2VService} {o : List Effect}
    (e : followResponse ser s = some (t, o)) : t = s := by
  unfold followResponse at e
  split_ifs at e with hl
  · simp at e; exact e.1.symm
  · split at e
    · simp at e
    · simp at e; exact e.1.symm

theorem basic_stopFollow_handlesOk {s t : V2VService} {o : List Effect}
    (h : HandlesOk s) (e : stopFollow ser s = some (t, o)) : HandlesOk t := by
  unfold stopFollow at e
  split_ifs at e with hl hf
  · split at e
    · simp at e
    · simp at e; obtain ⟨rfl, _⟩ := e; exact ⟨fun c => absurd rfl c, h.2⟩
  · split at e
    · simp at e
    · simp at e; obtain ⟨rfl, _⟩ := e; exact ⟨h.1, fun c => absurd rfl c⟩
  · simp at e; obtain ⟨rfl, _⟩ := e; exact h

theorem basic_followerStatus_state {s t : V2VService} {o : List Effect} {a b c d : Reading}
    {now : Timeval} (e : followerStatus ser s a b c d now = some (t, o)) : t = s := by
  unfold followerStatus at e
  split_ifs at e with hl
  · simp at e; exact e.1.symm
  · simp only at e
    split at e
    · simp at e
    · simp at e; exact e.1.symm

theorem basic_leaderStatus_state {s t : V2VService} {o : List Effect} {a b c : Reading}
    {now : Timeval} (e : leaderStatus ser s a b c now = some (t, o)) : t = s := by
  unfold leaderStatus at e
  split_ifs at e with hl
  · simp at e; exact e.1.symm
  · simp only at e
    split at e
    · simp at e
    · simp at e; exact e.1.symm

theorem basic_incomingHandler_handlesOk {s t : V2VService} {data sender : Str}
    {id0 len0 : Nat} {o : List Effect}
    (h : HandlesOk s) (e : incomingHandler ser s data sender id0 len0 = some (t, o)) :
    HandlesOk t := by
  unfold incomingHandler at e
  split at e
  · rename_i msg senderIp _ _
    split_ifs at e with c1 c2 c3 c4 c5 c6 c7 c8
    · have := basic_followResponse_state ser e
      subst this
      exact ⟨h.1, fun _ => rfl⟩
    · simp at e; obtain ⟨rfl, _⟩ := e; exact h
    · simp at e; obtain ⟨rfl, _⟩ := e; exact h
    · simp at e; obtain ⟨rfl, _⟩ := e; exact ⟨h.1, fun c => absurd rfl c⟩
    · simp at e; obtain ⟨rfl, _⟩ := e; exact ⟨fun c => absurd rfl c, h.2⟩
    all_goals (simp at e; obtain ⟨rfl, _⟩ := e; exact h)
  · simp at e

theorem basic_step_handlesOk {s t : V2VService} {ev : Event} {o : List Effect}
    (h : HandlesOk s) (e : step ser s ev = some (t, o)) : HandlesOk t := by
  cases ev with
  | broadcast env =>
    simp only [step, broadcastHandler] at e
    split at e <;> (simp at e; obtain ⟨rfl, _⟩ := e; exact h)
  | incoming data sender id0 len0 => exact basic_incomingHandler_handlesOk ser h e
  | announcePresence a b =>
    simp only [step, announcePresence] at e
    split_ifs at e <;> (simp at e; obtain ⟨rfl, _⟩ := e; exact h)
  | followRequest v => exact basic_followRequest_handlesOk ser h e
  | followResponse => rw [basic_followResponse_state ser e]; exact h
  | stopFollow => exact basic_stopFollow_handlesOk ser h e
  | followerStatus a b c d now => rw [basic_followerStatus_state ser e]; exact h
  | leaderStatus a b c now => rw [basic_leaderStatus_state ser e]; exact h

theorem basic_run_handlesOk (evs : List Event) : ∀ {s t : V2VService} {o : List Effect},
    HandlesOk s → run ser s evs = some (t, o) → HandlesOk t := by
  induction evs with
  | nil => intro s t o h e; simp [run] at e; obtain ⟨rfl, _⟩ := e; exact h
  | cons ev rest ih =>
    intro s t o h e
    simp only [run] at e
    obtain ⟨m, o1, o2, e1, e2, _⟩ := Outcome.andThen_eq_some e
    exact ih (basic_step_handlesOk ser h e1) e2

/-- Every state the basic service can be in satisfies the channel-handle
invariant. -/
theorem basic_reachable_handlesOk {s : V2VService} (h : Reachable ser s) : HandlesOk s := by
  obtain ⟨evs, o, e⟩ := h
  exact basic_run_handlesOk ser evs (by simp [HandlesOk, init]) e

/-- Under the channel-handle invariant `stopFollow` of the basic variant
returns after tearing down the outgoing link if there is one, else the
incoming link if there is one. -/
theorem basic_stopFollow_eq (s : V2VService) (hk : HandlesOk s) :
    stopFollow ser s =
      some (if s.leaderIp ≠ [] then { s with leaderIp := [], toLeader := none }
            else if s.followerIp ≠ [] then { s with followerIp := [], toFollower := none }
            else s,
            if s.leaderIp ≠ [] then [Effect.udp s.leaderIp (encode 1004 (ser Msg.stopFollow))]
            else if s.followerIp ≠ [] then
              [Effect.udp s.followerIp (encode 1004 (ser Msg.stopFollow))]
            else []) := by
  obtain ⟨hl, hf⟩ := hk
  unfold stopFollow
  by_cases c1 : s.leaderIp = [] <;> by_cases c2 : s.followerIp = []
  · simp [c1, c2]
  · simp [c1, c2, hf c2, sendVia, Msg.ID]
  · simp [c1, c2, hl c1, sendVia, Msg.ID]
  · simp [c1, c2, hl c1, sendVia, Msg.ID]

theorem basic_followResponse_returns (s : V2VService) (h : HandlesOk s) :
    ∃ o, followResponse ser s = some (s, o) := by
  by_cases c : s.followerIp = []
  · exact ⟨[], by simp [followResponse, c]⟩
  · exact ⟨[Effect.udp s.followerIp (encode 1003 (ser Msg.followResponse))],
      by simp [followResponse, c, h.2 c, sendVia, Msg.ID]⟩

theorem basic_followerStatus_returns (s : V2VService) (h : HandlesOk s) (a b c d : Reading)
    (now : Timeval) : ∃ o, followerStatus ser s a b c d now = some (s, o) := by
  by_cases e : s.leaderIp = []
  · exact ⟨[], by simp [followerStatus, e]⟩
  · exact ⟨[Effect.udp s.leaderIp
        (encode 3001 (ser (Msg.followerStatus (getTime now.tv_sec now.tv_usec) a b c d)))],
      by simp [followerStatus, e, h.1 e, sendVia, Msg.ID]⟩

theorem basic_leaderStatus_returns (s : V2VService) (h : HandlesOk s) (a b c : Reading)
    (now : Timeval) : ∃ o, leaderStatus ser s a b c now = some (s, o) := by
  by_cases d : s.followerIp = []
  · exact ⟨[], by simp [leaderStatus, d]⟩
  · exact ⟨[Effect.udp s.followerIp
        (encode 2001 (ser (Msg.leaderStatus (getTime now.tv_sec now.tv_usec) a b c)))],
      by simp [leaderStatus, d, h.2 d, sendVia, Msg.ID]⟩

theorem basic_followRequest_returns (s : V2VService) (v : Str) :
    ∃ t o, followRequest ser s v = some (t, o) := by
  by_cases c : s.leaderIp = []
  · exact ⟨{ s with leaderIp := v, toLeader := some v },
      [Effect.udp v (encode 1002 (ser Msg.followRequest))],
      by simp [followRequest, c, sendVia, Msg.ID]⟩
  · exact ⟨s, [], by simp [followRequest, c]⟩

theorem basic_incomingHandler_returns (s : V2VService) (h : HandlesOk s) (data sender : Str)
    (id0 len0 : Nat) : ∃ t o, incomingHandler ser s data sender id0 len0 = some (t, o) := by
  obtain ⟨ip, hip⟩ := senderIpOf_isSome sender
  have he := extract_eq id0 len0 data
  apply Outcome.exists_of_isSome
  unfold incomingHandler
  rw [he, hip]
  simp only
  split_ifs
  all_goals first
    | rfl
    | (have hk : HandlesOk { s with followerIp := ip, toFollower := some ip } :=
        ⟨h.1, fun _ => rfl⟩
       obtain ⟨o, e⟩ := basic_followResponse_returns ser _ hk
       rw [e]
       rfl)

theorem basic_step_returns (s : V2VService) (h : HandlesOk s) (ev : Event) :
    ∃ t o, step ser s ev = some (t, o) := by
  cases ev with
  | broadcast env => cases env <;> exact ⟨_, _, rfl⟩
  | incoming data sender id0 len0 =>
    exact basic_incomingHandler_returns ser s h data sender id0 len0
  | announcePresence a b =>
    apply Outcome.exists_of_isSome
    simp only [step, announcePresence]
    split_ifs <;> rfl
  | followRequest v => exact basic_followRequest_returns ser s v
  | followResponse =>
    obtain ⟨o, e⟩ := basic_followResponse_returns ser s h
    exact ⟨s, o, e⟩
  | stopFollow => exact ⟨_, _, basic_stopFollow_eq ser s h⟩
  | followerStatus a b c d now =>
    obtain ⟨o, e⟩ := basic_followerStatus_returns ser s h a b c d now
    exact ⟨s, o, e⟩
  | leaderStatus a b c now =>
    obtain ⟨o, e⟩ := basic_leaderStatus_returns ser s h a b c now
    exact ⟨s, o, e⟩

end V2V

end BasicInvariant

/-! ## One-at-a-time teardown, sender address, handle safety, narrowing and time -/

section Behaviour

open Codec

/-- C21. Basic-variant `stopFollow` tears down one link at a time: in a state
the basic service can be in with both `leaderIp` and `followerIp` non-empty, a
single `stopFollow` sends exactly one frame, the encoded StopFollow, to the
leader, clears `leaderIp` and its handle and leaves everything else, the
incoming link and its peer included, unchanged; a second `stopFollow` then
sends one StopFollow to the follower and clears the incoming link. From every
state the service can be in, two consecutive calls return and leave both
`leaderIp` and `followerIp` empty. -/
theorem basic_stopFollow_one_at_a_time (ser : Msg → Str) (s r : V2V.V2VService)
    (hs : V2V.Reachable ser s) (hl : s.leaderIp ≠ []) (hf : s.followerIp ≠ [])
    (hr : V2V.Reachable ser r) :
    V2V.stopFollow ser s =
      some ({ s with leaderIp := [], toLeader := none },
            [Effect.udp s.leaderIp (encode 1004 (ser Msg.stopFollow))]) ∧
    V2V.stopFollow ser { s with leaderIp := [], toLeader := none } =
      some ({ s with leaderIp := [], toLeader := none, followerIp := [], toFollower := none },
            [Effect.udp s.followerIp (encode 1004 (ser Msg.stopFollow))]) ∧
    ∃ t o u o2, V2V.stopFollow ser r = some (t, o) ∧ V2V.stopFollow ser t = some (u, o2) ∧
      u.leaderIp = [] ∧ u.followerIp = [] := by
  have hk := V2V.basic_reachable_handlesOk ser hs
  have hk1 : V2V.HandlesOk { s with leaderIp := [], toLeader := none } :=
    ⟨fun c => absurd rfl c, hk.2⟩
  have hkr := V2V.basic_reachable_handlesOk ser hr
  refine ⟨?_, ?_, ?_⟩
  · rw [V2V.basic_stopFollow_eq ser s hk]
    simp [hl]
  · rw [V2V.basic_stopFollow_eq ser _ hk1]
    simp [hf]
  · have e1 := V2V.basic_stopFollow_eq ser r hkr
    have hkt := V2V.basic_stopFollow_handlesOk ser hkr e1
    have e2 := V2V.basic_stopFollow_eq ser _ hkt
    refine ⟨_, _, _, _, e1, e2, ?_, ?_⟩
    · by_cases c1 : r.leaderIp = [] <;> by_cases c2 : r.followerIp = [] <;> simp [c1, c2]
    · by_cases c1 : r.leaderIp = [] <;> by_cases c2 : r.followerIp = [] <;> simp [c1, c2]

theorem basic_stopFollow_one_at_a_time_witness :
    (V2V.Reachable emptySer
        { V2V.init with
            leaderIp := "10.0.0.1".toList, toLeader := some "10.0.0.1".toList,
            followerIp := "10.0.0.3".toList, toFollower := some "10.0.0.3".toList } ∧
      "10.0.0.1".toList ≠ [] ∧ "10.0.0.3".toList ≠ [] ∧
      V2V.Reachable emptySer
        { V2V.init with
            followerIp := "10.0.0.3".toList, toFollower := some "10.0.0.3".toList }) ∧
    (V2V.stopFollow emptySer
        { V2V.init with
            leaderIp := "10.0.0.1".toList, toLeader := some "10.0.0.1".toList,
            followerIp := "10.0.0.3".toList, toFollower := some "10.0.0.3".toList } =
      some ({ V2V.init with
                followerIp := "10.0.0.3".toList, toFollower := some "10.0.0.3".toList },
            [Effect.udp "10.0.0.1".toList "03ec000000".toList]) ∧
     V2V.stopFollow emptySer
        { V2V.init with
            followerIp := "10.0.0.3".toList, toFollower := some "10.0.0.3".toList } =
      some (V2V.init, [Effect.udp "10.0.0.3".toList "03ec000000".toList]) ∧
     ∃ t o u o2,
       V2V.stopFollow emptySer
         { V2V.init with
             followerIp := "10.0.0.3".toList, toFollower := some "10.0.0.3".toList } =
         some (t, o) ∧
       V2V.stopFollow emptySer t = some (u, o2) ∧ u.leaderIp = [] ∧ u.followerIp = []) :=
  have hs : V2V.Reachable emptySer
      { V2V.init with
          leaderIp := "10.0.0.1".toList, toLeader := some "10.0.0.1".toList,
          followerIp := "10.0.0.3".toList, toFollower := some "10.0.0.3".toList } :=
    ⟨[V2V.Event.followRequest "10.0.0.1".toList,
      V2V.Event.incoming "03ea000000".toList "10.0.0.3:50001".toList 0 0],
     [Effect.udp "10.0.0.1".toList "03ea000000".toList,
      Effect.udp "10.0.0.3".toList "03eb000000".toList], by decide⟩
  have hr : V2V.Reachable emptySer
      { V2V.init with
          followerIp := "10.0.0.3".toList, toFollower := some "10.0.0.3".toList } :=
    ⟨[V2V.Event.incoming "03ea000000".toList "10.0.0.3:50001".toList 0 0],
     [Effect.udp "10.0.0.3".toList "03eb000000".toList], by decide⟩
  have h := basic_stopFollow_one_at_a_time emptySer _ _ hs (by decide) (by decide) hr
  ⟨⟨hs, by decide, by decide, hr⟩, h.1.trans (by decide), h.2.1.trans (by decide), h.2.2⟩

theorem take_indexOf_eq_takeWhile (c : Char) (s : Str) :
    List.take (List.indexOf c s) s = s.takeWhile (fun x => x != c) := by
  induction s with
  | nil => rfl
  | cons a r ih =>
    by_cases h : a = c
    · subst h; simp
    · have h2 : (a != c) = true := by simp [h]
      rw [List.indexOf_cons_ne _ h, List.takeWhile_cons, h2]
      simp [ih]

theorem takeWhile_ne_of_not_mem (c : Char) (s : Str) (h : c ∉ s) :
    s.takeWhile (fun x => x != c) = s := by
  rw [List.takeWhile_eq_self_iff]
  intro x hx
  simp only [bne_iff_ne, ne_eq]
  rintro rfl
  exact h hx

theorem senderIpOf_eq_takeWhile (sender : Str) (hlen : sender.length ≤ npos) :
    senderIpOf sender = some (sender.takeWhile (fun c => c != ':')) := by
  unfold senderIpOf find substr
  by_cases h : ':' ∈ sender
  · simp [h, take_indexOf_eq_takeWhile]
  · simp [h, takeWhile_ne_of_not_mem ':' sender h, List.take_of_length_le hlen]

/-- C22. Sender IP derivation, for sender addresses within the length a
`std::string` can have (at most `npos` characters): for an address of the form
`ip ++ ":" ++ port` where `ip` contains no colon the derived `senderIp` is
`ip`; for an address without a colon it is the whole address; in general it
is the prefix of the address before its first colon. -/
theorem senderIp_derivation (ip port plain sender : Str)
    (hip : ':' ∉ ip) (hiplen : (ip ++ ':' :: port).length ≤ npos)
    (hplain : ':' ∉ plain) (hplainlen : plain.length ≤ npos)
    (hlen : sender.length ≤ npos) :
    senderIpOf (ip ++ ':' :: port) = some ip ∧
    senderIpOf plain = some plain ∧
    senderIpOf sender = some (sender.takeWhile (fun c => c != ':')) := by
  refine ⟨?_, ?_, senderIpOf_eq_takeWhile sender hlen⟩
  · rw [senderIpOf_eq_takeWhile _ hiplen, List.takeWhile_append]
    simp [takeWhile_ne_of_not_mem ':' ip hip]
  · rw [senderIpOf_eq_takeWhile _ hplainlen, takeWhile_ne_of_not_mem ':' plain hplain]

theorem senderIp_derivation_witness :
    (':' ∉ "10.0.0.1".toList ∧ ("10.0.0.1".toList ++ ':' :: "50001".toList).length ≤ npos ∧
      ':' ∉ "localhost".toList ∧ "localhost".toList.length ≤ npos ∧
      "fe80::1:50001".toList.length ≤ npos) ∧
    (senderIpOf ("10.0.0.1".toList ++ ':' :: "50001".toList) = some "10.0.0.1".toList ∧
     senderIpOf "localhost".toList = some "localhost".toList ∧
     senderIpOf "fe80::1:50001".toList = some "fe80".toList) :=
  have h := senderIp_derivation "10.0.0.1".toList "50001".toList "localhost".toList
    "fe80::1:50001".toList (by decide) (by decide) (by decide) (by decide) (by decide)
  ⟨by decide, h.1, h.2.1, h.2.2.trans (by decide)⟩

/-- C23. Channel-handle safety: in every state either variant of the service
can be in (reached from the state left by the constructor by any sequence of
events, taken one at a time), a non-empty `leaderIp` has `toLeader` set and
bound to it, a non-empty `followerIp` has `toFollower` set and bound to it,
and every event returns: no send in `followResponse`, `stopFollow`,
`followerStatus`, `leaderStatus` or anywhere else goes through an unset
handle. -/
theorem handle_safety (ser : Msg → Str) (sv : Vis.V2VService) (sb : V2V.V2VService)
    (hv : Vis.Reachable ser sv) (hb : V2V.Reachable ser sb) :
    ((sv.leaderIp ≠ [] → sv.toLeader = some sv.leaderIp) ∧
      (sv.followerIp ≠ [] → sv.toFollower = some sv.followerIp) ∧
      ∀ ev : Vis.Event, ∃ t o, Vis.step ser sv ev = some (t, o)) ∧
    ((sb.leaderIp ≠ [] → sb.toLeader = some sb.leaderIp) ∧
      (sb.followerIp ≠ [] → sb.toFollower = some sb.followerIp) ∧
      ∀ ev : V2V.Event, ∃ t o, V2V.step ser sb ev = some (t, o)) := by
  have kv := Vis.reachable_handlesOk ser hv
  have kb := V2V.basic_reachable_handlesOk ser hb
  exact ⟨⟨kv.1, kv.2, fun ev => Vis.step_returns ser sv kv ev⟩,
    ⟨kb.1, kb.2, fun ev => V2V.basic_step_returns ser sb kb ev⟩⟩

theorem handle_safety_witness :
    (Vis.Reachable emptySer
        { Vis.init "10.0.0.2".toList "7".toList with
            leaderIp := "10.0.0.1".toList, toLeader := some "10.0.0.1".toList } ∧
      V2V.Reachable emptySer
        { V2V.init with
            followerIp := "10.0.0.3".toList, toFollower := some "10.0.0.3".toList }) ∧
    (∀ ev : Vis.Event, ∃ t o, Vis.step emptySer
        { Vis.init "10.0.0.2".toList "7".toList with
            leaderIp := "10.0.0.1".toList, toLeader := some "10.0.0.1".toList } ev =
        some (t, o)) ∧
    (∀ ev : V2V.Event, ∃ t o, V2V.step emptySer
        { V2V.init with
            followerIp := "10.0.0.3".toList, toFollower := some "10.0.0.3".toList } ev =
        some (t, o)) :=
  have hv : Vis.Reachable emptySer
      { Vis.init "10.0.0.2".toList "7".toList with
          leaderIp := "10.0.0.1".toList, toLeader := some "10.0.0.1".toList } :=
    ⟨"10.0.0.2".toList, "7".toList, [Vis.Event.followRequest "10.0.0.1".toList],
     [Effect.udp "10.0.0.1".toList "03ea000000".toList], by decide⟩
  have hb : V2V.Reachable emptySer
      { V2V.init with
          followerIp := "10.0.0.3".toList, toFollower := some "10.0.0.3".toList } :=
    ⟨[V2V.Event.incoming "03ea000000".toList "10.0.0.3:50001".toList 0 0],
     [Effect.udp "10.0.0.3".toList "03eb000000".toList], by decide⟩
  have h := handle_safety emptySer _ _ hv hb
  ⟨⟨hv, hb⟩, h.1.2.2, h.2.2.2⟩

theorem Codec.toInt16_of_ge (u : Nat) (h1 : 32768 ≤ u) (h2 : u < 65536) :
    toInt16 u = (u : Int) - 65536 := by
  unfold toInt16
  have e : u % 65536 = u := Nat.mod_eq_of_lt h2
  rw [e, if_neg (by omega)]

/-- What `extract` returns on a frame built by `encode` whose payload does not
begin with a hexadecimal digit: the type code narrowed to 16 bits and the
payload. -/
theorem Codec.extract_encode_narrowed (id0 len0 ID : Nat) (p : Str) (hID : ID < 2 ^ 16)
    (hn : p.length < 2 ^ 24) (hp : ∀ c ∈ p.head?, hexVal c = none) :
    extract id0 len0 (encode ID p) = some (toInt16 ID, p) := by
  rw [encode_eq ID p hID hn,
    extract_split id0 len0 _ _ p (zeroPaddedHex_length 4 ID) (zeroPaddedHex_length 6 p.length),
    hexExtract_zeroPaddedHex_six len0 p.length (p.take 4) (by norm_num at hn ⊢; exact hn)
      (head?_take_four p hp),
    if_pos rfl]
  have h4 := hexExtract_zeroPaddedHex_four id0 ID [] (by norm_num at hID ⊢; exact hID)
    (by simp)
  rw [List.append_nil] at h4
  rw [h4]

/-- C24. The frame `encode` builds for the type code `0x8000` and the payload
`1` is `80000000011`; its four-digit type code is at least `0x8000`, and
`extract` returns `-1` for it, not `0x8000 - 65536 = -32768`. -/
theorem extract_narrowing_fails_on_hex_payload :
    encode 32768 ['1'] = "80000000011".toList ∧
    extract 0 0 "80000000011".toList = some (-1, ['1']) ∧
    ((32768 : Int) - 65536 = -32768 ∧ (-1 : Int) ≠ -32768) := by
  decide

/-- C25. Timestamp range: for a clock reading with fewer than 1000000
microseconds `getTime` returns the microseconds divided by 1000, a value in
`0..999` that does not depend on the seconds; it is not monotone in the clock,
since the reading one millisecond before second 2 gives 999 and the reading at
second 2 gives 0. -/
theorem getTime_range (tv_sec other_sec tv_usec : Nat) (h : tv_usec < 1000000) :
    getTime tv_sec tv_usec = tv_usec / 1000 ∧
    getTime tv_sec tv_usec ≤ 999 ∧
    getTime tv_sec tv_usec = getTime other_sec tv_usec ∧
    (getTime 1 999000 = 999 ∧ getTime 2 0 = 0) := by
  have e : tv_usec % 2 ^ 32 = tv_usec := Nat.mod_eq_of_lt (by norm_num; omega)
  refine ⟨?_, ?_, rfl, by decide⟩
  · unfold getTime; rw [e]
  · unfold getTime; rw [e]; omega

theorem getTime_range_witness :
    345678 < 1000000 ∧
    (getTime 12 345678 = 345678 / 1000 ∧ getTime 12 345678 ≤ 999 ∧
      getTime 12 345678 = getTime 13 345678 ∧ (getTime 1 999000 = 999 ∧ getTime 2 0 = 0)) :=
  ⟨by decide, getTime_range 12 13 345678 (by decide)⟩

end Behaviour
